import Mathlib

/-!
# Event Reconciliation and Lifecycle Pipeline: a shallow embedding

This file embeds the reconciliation pipeline of the event-catalog backend
(`services/event_pipeline.py`, `services/event_duplicator.py`,
`services/event_cleaner/archive_past_events.py`,
`services/event_cleaner/cleanup_orphan_subevents.py`,
`services/event_cleaner/remove_internal_duplicates.py`,
`data/database/database_events.py`) and proves or refutes the claims of the
specification about it.

Modelling conventions:
* Python dict fields that may be absent or null are `Option` values; the
  Python truthiness test `if x:` on a string-valued field is `none` or the
  empty string.
* The database session is a `Store` of two row lists.  Row identities are
  strings, as in `database_events.py` where both primary keys are uuid hex
  strings.  Primary-key updates and deletes are by id; theorems that need
  the primary-key uniqueness of the real database carry a `Nodup`
  hypothesis on the id column.
* The external LLM ("Oracle") calls are injected as data: each embedded
  phase takes the decoded response as a parameter, with an `Except`/`Option`
  layer distinguishing a raised exception and an unparseable or empty
  response, mirroring exactly which failures the source catches where.
* `date.today()` is passed explicitly as a `PyDate` parameter.
-/

set_option autoImplicit false

namespace EventPipeline

/-! ## Dates and `parse_date` (archive_past_events.py, lines 6-32) -/

/-- A calendar date as produced by `datetime.strptime(...).date()`. -/
structure PyDate where
  year : Nat
  month : Nat
  day : Nat
deriving DecidableEq, Repr

/-- Order key for dates: Python `date` objects compare lexicographically by
(year, month, day); for the bounded month and day fields this packing is
order-faithful. -/
def PyDate.key (d : PyDate) : Nat :=
  d.year * 512 + d.month * 32 + d.day

/-- `a < b` on Python dates. -/
def PyDate.lt (a b : PyDate) : Bool :=
  a.key < b.key

/-- `a >= b` on Python dates. -/
def PyDate.ge (a b : PyDate) : Bool :=
  b.key ≤ a.key

def digitVal (c : Char) : Nat := c.toNat - 48

/-- Leap-year rule used by `datetime`. -/
def isLeap (y : Nat) : Bool :=
  y % 4 = 0 && (y % 100 ≠ 0 || y % 400 = 0)

/-- Number of days in a month, as validated by the `datetime` constructor. -/
def daysInMonth (y m : Nat) : Nat :=
  if m = 2 then (if isLeap y then 29 else 28)
  else if m = 4 || m = 6 || m = 9 || m = 11 then 30
  else 31

/-- `datetime` accepts a (year, month, day) triple only if it denotes a real
calendar date with year at least 1. -/
def mkValidDate (y m d : Nat) : Option PyDate :=
  if 1 ≤ y && 1 ≤ m && m ≤ 12 && 1 ≤ d && d ≤ daysInMonth y m then
    some ⟨y, m, d⟩
  else
    none

/-- `%Y`: exactly four digits. -/
def takeYear4 : List Char → Option (Nat × List Char)
  | a :: b :: c :: d :: rest =>
      if a.isDigit && b.isDigit && c.isDigit && d.isDigit then
        some (digitVal a * 1000 + digitVal b * 100 + digitVal c * 10 + digitVal d, rest)
      else
        none
  | _ => none

/-- `%d` and `%m`: one or two digits; the two-digit reading is preferred when
its value is within range (mirroring the ordered regex alternation strptime
compiles, for example 3[01] before [1-9]). -/
def takeNum (hi : Nat) : List Char → Option (Nat × List Char)
  | a :: b :: rest =>
      if a.isDigit then
        if b.isDigit && 1 ≤ digitVal a * 10 + digitVal b && digitVal a * 10 + digitVal b ≤ hi then
          some (digitVal a * 10 + digitVal b, rest)
        else if 1 ≤ digitVal a && digitVal a ≤ 9 then
          some (digitVal a, b :: rest)
        else
          none
      else
        none
  | [a] =>
      if a.isDigit && 1 ≤ digitVal a && digitVal a ≤ 9 then
        some (digitVal a, [])
      else
        none
  | [] => none

/-- One literal character. -/
def takeLit (ch : Char) : List Char → Option (List Char)
  | c :: rest => if c = ch then some rest else none
  | [] => none

/-- Whitespace in a strptime format matches one or more whitespace
characters of the input. -/
def takeWs : List Char → Option (List Char)
  | c :: rest =>
      if c.isWhitespace then some (rest.dropWhile Char.isWhitespace) else none
  | [] => none

def monthFullNames : List (String × Nat) :=
  [("january", 1), ("february", 2), ("march", 3), ("april", 4), ("may", 5),
   ("june", 6), ("july", 7), ("august", 8), ("september", 9), ("october", 10),
   ("november", 11), ("december", 12)]

def monthAbbrNames : List (String × Nat) :=
  [("jan", 1), ("feb", 2), ("mar", 3), ("apr", 4), ("may", 5), ("jun", 6),
   ("jul", 7), ("aug", 8), ("sep", 9), ("oct", 10), ("nov", 11), ("dec", 12)]

/-- Case-insensitive prefix stripping: the table names are stored lowercase
and the input character is lowered before comparison (strptime matches month
names with IGNORECASE). -/
def stripPrefixCI : List Char → List Char → Option (List Char)
  | [], cs => some cs
  | _ :: _, [] => none
  | p :: ps, c :: cs => if p = c.toLower then stripPrefixCI ps cs else none

/-- `%B` or `%b`: the first month name of the table that prefixes the input. -/
def takeMonthName (tbl : List (String × Nat)) (cs : List Char) : Option (Nat × List Char) :=
  tbl.findSome? fun nv =>
    match stripPrefixCI nv.1.toList cs with
    | some rest => some (nv.2, rest)
    | none => none

/-- Format `%Y-%m-%d` (for example 2025-01-15). -/
def fmtYmd (cs : List Char) : Option PyDate := do
  let (y, cs) ← takeYear4 cs
  let cs ← takeLit '-' cs
  let (m, cs) ← takeNum 12 cs
  let cs ← takeLit '-' cs
  let (d, cs) ← takeNum 31 cs
  guard (cs = [])
  mkValidDate y m d

/-- Format `%d.%m.%Y` (for example 15.01.2025). -/
def fmtDmyDot (cs : List Char) : Option PyDate := do
  let (d, cs) ← takeNum 31 cs
  let cs ← takeLit '.' cs
  let (m, cs) ← takeNum 12 cs
  let cs ← takeLit '.' cs
  let (y, cs) ← takeYear4 cs
  guard (cs = [])
  mkValidDate y m d

/-- Format `%d/%m/%Y` (for example 15/01/2025). -/
def fmtDmySlash (cs : List Char) : Option PyDate := do
  let (d, cs) ← takeNum 31 cs
  let cs ← takeLit '/' cs
  let (m, cs) ← takeNum 12 cs
  let cs ← takeLit '/' cs
  let (y, cs) ← takeYear4 cs
  guard (cs = [])
  mkValidDate y m d

/-- Format `%m/%d/%Y` (for example 01/15/2025). -/
def fmtMdySlash (cs : List Char) : Option PyDate := do
  let (m, cs) ← takeNum 12 cs
  let cs ← takeLit '/' cs
  let (d, cs) ← takeNum 31 cs
  let cs ← takeLit '/' cs
  let (y, cs) ← takeYear4 cs
  guard (cs = [])
  mkValidDate y m d

/-- Format `%B %d, %Y` (for example January 15, 2025). -/
def fmtBdY (cs : List Char) : Option PyDate := do
  let (m, cs) ← takeMonthName monthFullNames cs
  let cs ← takeWs cs
  let (d, cs) ← takeNum 31 cs
  let cs ← takeLit ',' cs
  let cs ← takeWs cs
  let (y, cs) ← takeYear4 cs
  guard (cs = [])
  mkValidDate y m d

/-- Format `%b %d, %Y` (for example Jan 15, 2025). -/
def fmtAbdY (cs : List Char) : Option PyDate := do
  let (m, cs) ← takeMonthName monthAbbrNames cs
  let cs ← takeWs cs
  let (d, cs) ← takeNum 31 cs
  let cs ← takeLit ',' cs
  let cs ← takeWs cs
  let (y, cs) ← takeYear4 cs
  guard (cs = [])
  mkValidDate y m d

/-- Format `%d %B %Y` (for example 15 January 2025). -/
def fmtDBY (cs : List Char) : Option PyDate := do
  let (d, cs) ← takeNum 31 cs
  let cs ← takeWs cs
  let (m, cs) ← takeMonthName monthFullNames cs
  let cs ← takeWs cs
  let (y, cs) ← takeYear4 cs
  guard (cs = [])
  mkValidDate y m d

/-- Format `%d %b %Y` (for example 15 Jan 2025). -/
def fmtDAbY (cs : List Char) : Option PyDate := do
  let (d, cs) ← takeNum 31 cs
  let cs ← takeWs cs
  let (m, cs) ← takeMonthName monthAbbrNames cs
  let cs ← takeWs cs
  let (y, cs) ← takeYear4 cs
  guard (cs = [])
  mkValidDate y m d

/-- Python `str.strip()`: remove leading and trailing whitespace. -/
def pyStrip (cs : List Char) : List Char :=
  ((cs.dropWhile Char.isWhitespace).reverse.dropWhile Char.isWhitespace).reverse

/-- `parse_date` (archive_past_events.py, lines 6-32): returns `none` for a
falsy string, otherwise strips the string and tries the eight formats in
order, returning the first success, or `none` when all fail. -/
def parse_date (s : String) : Option PyDate :=
  if s = "" then none
  else
    let cs := pyStrip s.toList
    (fmtYmd cs).orElse fun _ =>
    (fmtDmyDot cs).orElse fun _ =>
    (fmtDmySlash cs).orElse fun _ =>
    (fmtMdySlash cs).orElse fun _ =>
    (fmtBdY cs).orElse fun _ =>
    (fmtAbdY cs).orElse fun _ =>
    (fmtDBY cs).orElse fun _ =>
    fmtDAbY cs

/-! ## Python truthiness helpers -/

/-- Python `a or b` on optional string fields: `a` is returned when truthy
(present and nonempty), otherwise `b`. -/
def pyOr (a b : Option String) : Option String :=
  match a with
  | some s => if s = "" then b else some s
  | none => b

/-- Python `not x` on an optional string: true for absent, null or empty. -/
def strBlank (a : Option String) : Bool :=
  match a with
  | some s => s = ""
  | none => true

/-! ## Candidate records (the extractor output dicts) -/

/-- A candidate event dict as consumed by the pipeline.  Descriptive-only
fields of the dict (street, room, speaker and so on) are carried nowhere in
the reconciliation logic and are omitted. -/
structure Cand where
  Title : Option String := none
  Start_Date : Option String := none
  End_Date : Option String := none
  Main_Event_Temp_Key : Option String := none
  Registration_Needed : Option Bool := none
  Registration_URL : Option String := none
deriving DecidableEq, Repr

/-- `event.get("Main_Event_Temp_Key", "")` followed by the truthiness uses
of the source: an absent or null key behaves exactly like the empty string
in every use site (grouping skips falsy keys, lookups of a falsy key find
no group, and set membership of a falsy key never meets a group key), so
the two are identified. -/
def getKeyD (c : Cand) : String :=
  match c.Main_Event_Temp_Key with
  | some s => s
  | none => ""

/-- `is_future_event` (archive_past_events.py, lines 35-56): prefers the end
date, falls back to the start date; missing or unparseable dates are treated
as future (fail open); otherwise the parsed date must be today or later. -/
def is_future_event (today : PyDate) (e : Cand) : Bool :=
  match pyOr e.End_Date e.Start_Date with
  | none => true
  | some s =>
      if s = "" then true
      else
        match parse_date s with
        | none => true
        | some d => d.ge today

/-! ## Future-Window Filter (archive_past_events.py, lines 83-161)

The source groups sub-candidates into a dict keyed by temp-key, in
insertion order, skipping falsy keys.  The dict is modelled as an
association list built in the same order. -/

/-- Append a sub under its key, creating the group on first sight
(the dict-update inside the grouping loop). -/
def addToGroups (g : List (String × List Cand)) (k : String) (s : Cand) :
    List (String × List Cand) :=
  match g with
  | [] => [(k, [s])]
  | e :: rest => if e.1 = k then (e.1, e.2 ++ [s]) :: rest else e :: addToGroups rest k s

/-- The grouping loop: `sub_events_by_key` with falsy keys skipped. -/
def buildGroups (subs : List Cand) : List (String × List Cand) :=
  subs.foldl (fun g s => if getKeyD s = "" then g else addToGroups g (getKeyD s) s) []

/-- `sub_events_by_key.get(key, [])`. -/
def findGroup (g : List (String × List Cand)) (k : String) : List Cand :=
  match g.find? (fun e => e.1 == k) with
  | some e => e.2
  | none => []

/-- One iteration of the main loop of `filter_future_events_with_subevents`
(archive_past_events.py, lines 114-140): a main-candidate with no related
subs is kept iff it is itself future; one with related subs is kept, along
with all of them, iff any related sub is future. -/
def ffeStep (today : PyDate) (groups : List (String × List Cand))
    (acc : List Cand × List Cand) (me : Cand) : List Cand × List Cand :=
  let related := findGroup groups (getKeyD me)
  if related.isEmpty then
    if is_future_event today me then (acc.1 ++ [me], acc.2) else acc
  else
    if related.any (is_future_event today) then
      (acc.1 ++ [me], acc.2 ++ related)
    else
      acc

/-- One iteration of the orphan loop (lines 152-159): the subs of a group
whose key matches no main-candidate are kept individually iff future. -/
def orphanStep (today : PyDate) (groups : List (String × List Cand))
    (acc : List Cand) (k : String) : List Cand :=
  acc ++ (findGroup groups k).filter (is_future_event today)

/-- `filter_future_events_with_subevents` (archive_past_events.py, lines
83-161).  The source iterates the remaining-keys set in unspecified Python
set order; it is determinized here to group insertion order, which affects
no membership. -/
def filter_future_events_with_subevents (today : PyDate)
    (main_events sub_events : List Cand) : List Cand × List Cand :=
  let groups := buildGroups sub_events
  let mainPass := main_events.foldl (ffeStep today groups) ([], [])
  let mainKeys := main_events.map getKeyD
  let remaining := (groups.map Prod.fst).filter (fun k => !(mainKeys.contains k))
  (mainPass.1, remaining.foldl (orphanStep today groups) mainPass.2)

/-- Specification-side restatement of the keep decision `ffeStep` applies
to one main-candidate. -/
def ffeKeep (today : PyDate) (groups : List (String × List Cand)) (me : Cand) : Bool :=
  let related := findGroup groups (getKeyD me)
  if related.isEmpty then is_future_event today me
  else related.any (is_future_event today)

/-- Specification-side restatement of the sub-candidates one
main-candidate contributes to the kept output. -/
def ffeContrib (today : PyDate) (groups : List (String × List Cand)) (me : Cand) : List Cand :=
  let related := findGroup groups (getKeyD me)
  if related.isEmpty then []
  else if related.any (is_future_event today) then related
  else []

/-! ## Persisted rows and the store (database_events.py)

Primary keys of both tables are uuid hex strings.  Fields that no claim or
reconciliation step reads (street, room, speaker, counters and so on) are
omitted.  `MainEventORM` and `SubEventORM` have no `language`,
`registration_url` or `meeting_url` columns; this matters below because the
insertion step passes those very keyword arguments to their constructors. -/

structure MainEvent where
  id : String
  title : Option String := none
  start_date : Option String := none
  end_date : Option String := none
  location : Option String := none
  registration_needed : Option Bool := none
  url : Option String := none
  main_event_temp_key : Option String := none
  sub_event_ids : List String := []
  archived_event : Bool := false
deriving DecidableEq, Repr

structure SubEvent where
  id : String
  title : Option String := none
  start_date : Option String := none
  end_date : Option String := none
  location : Option String := none
  registration_needed : Option Bool := none
  url : Option String := none
  main_event_temp_key : Option String := none
  main_event_id : Option String := none
  archived_event : Bool := false
deriving DecidableEq, Repr

/-- The two linked tables plus the uuid generator state for fresh primary
keys (`gen_uuid`). -/
structure Store where
  mains : List MainEvent := []
  subs : List SubEvent := []
  nextId : Nat := 0
deriving DecidableEq, Repr

/-- Fresh primary key string for the n-th generated uuid. -/
def genId (n : Nat) : String :=
  "uuid-" ++ toString n

/-! ## Lifecycle Archiver (archive_past_events.py, lines 164-240) -/

/-- The strictly-past test the archiver applies inline to a row: the end
date, falling back to the start date, must be truthy, parse, and be
strictly before today (lines 182-189, 194-205 and 224-232 all apply this
same test). -/
def rowPastStrict (today : PyDate) (endD startD : Option String) : Bool :=
  match pyOr endD startD with
  | none => false
  | some s =>
      if s = "" then false
      else
        match parse_date s with
        | none => false
        | some d => d.lt today

def archMain (m : MainEvent) : MainEvent := { m with archived_event := true }

def archSub (sb : SubEvent) : SubEvent := { sb with archived_event := true }

/-- Mutating `main_event.archived_event = True` on the row with this
primary key. -/
def setMainArchived (mains : List MainEvent) (i : String) : List MainEvent :=
  mains.map fun x => if x.id = i then archMain x else x

/-- Archiving every child of a main (the inner loop of lines 213-216 sets
the flag on the not-yet-archived children; setting it on all children is
the same end state). -/
def archiveSubsOf (subs : List SubEvent) (i : String) : List SubEvent :=
  subs.map fun sb => if sb.main_event_id = some i then archSub sb else sb

/-- `db.query(SubEventORM).filter(SubEventORM.main_event_id == main_event.id)`:
all children of a main, archived ones included. -/
def subsOfId (subs : List SubEvent) (i : String) : List SubEvent :=
  subs.filter fun sb => sb.main_event_id == some i

/-- One iteration of the archiver's main loop (lines 176-216): a childless
main is archived iff its own window is strictly past; a main with children
is archived, with all its children, iff every child's window is strictly
past. -/
def processMain (today : PyDate) (st : Store × Nat) (m : MainEvent) : Store × Nat :=
  let s := st.1
  let c := st.2
  let sub_events := subsOfId s.subs m.id
  if sub_events.isEmpty then
    if rowPastStrict today m.end_date m.start_date then
      ({ s with mains := setMainArchived s.mains m.id }, c + 1)
    else
      (s, c)
  else
    if sub_events.all (fun sb => rowPastStrict today sb.end_date sb.start_date) then
      ({ s with mains := setMainArchived s.mains m.id,
                subs := archiveSubsOf s.subs m.id },
       c + 1 + (sub_events.filter (fun sb => !sb.archived_event)).length)
    else
      (s, c)

/-- Orphan branch test of the archiver (lines 219-232): a parentless,
not-yet-archived sub with a strictly-past window. -/
def orphanPastSub (today : PyDate) (sb : SubEvent) : Bool :=
  sb.main_event_id == none && !sb.archived_event &&
    rowPastStrict today sb.end_date sb.start_date

/-- `archive_past_events_in_db` (lines 164-240): iterate a snapshot of the
non-archived mains, then archive past parentless subs.  Each orphan is
decided independently, so the orphan loop is a single map. -/
def archive_past_events_in_db (today : PyDate) (s : Store) : Store × Nat :=
  let snapshot := s.mains.filter (fun m => !m.archived_event)
  let afterMains := snapshot.foldl (processMain today) (s, 0)
  let s1 := afterMains.1
  ({ s1 with subs := s1.subs.map (fun sb => if orphanPastSub today sb then archSub sb else sb) },
   afterMains.2 + (s1.subs.filter (orphanPastSub today)).length)

/-- Specification-side restatement of the archive decision `processMain`
applies to one snapshot main: a childless main is archived iff its own
window is strictly past, one with children iff every child's window is. -/
def mainDecision (today : PyDate) (subs : List SubEvent) (m : MainEvent) : Bool :=
  let se := subsOfId subs m.id
  if se.isEmpty then rowPastStrict today m.end_date m.start_date
  else se.all (fun sb => rowPastStrict today sb.end_date sb.start_date)

/-- Ids of the snapshot mains one archiver pass archives. -/
def archivedIds (today : PyDate) (subs : List SubEvent) (todo : List MainEvent) :
    List String :=
  (todo.filter (mainDecision today subs)).map (·.id)

/-- Forget the archive flag of a sub row; the archiver only ever mutates
this flag, so its passes preserve rows up to `stripA`. -/
def stripA (sb : SubEvent) : SubEvent := { sb with archived_event := false }

/-- The pointwise effect of the archiver's main loop on a sub row, given
the ids `A` of the mains the pass archives: children of archived mains get
their flag set. -/
def clusterArch (A : List String) (sb : SubEvent) : SubEvent :=
  if (match sb.main_event_id with
      | some p => A.contains p
      | none => false) then archSub sb else sb

/-- The pointwise effect of the archiver's orphan loop on a sub row. -/
def orphanArch (today : PyDate) (sb : SubEvent) : SubEvent :=
  if orphanPastSub today sb then archSub sb else sb

/-! ## Orphan Reconciler (cleanup_orphan_subevents.py, lines 4-40) -/

/-- `not sub_event.main_event_id or sub_event.main_event_id not in
existing_main_ids`: the parent reference is absent, falsy (the empty
string), or names no existing main. -/
def isOrphanSub (mainIds : List String) (sb : SubEvent) : Bool :=
  match sb.main_event_id with
  | none => true
  | some r => r = "" || !(mainIds.contains r)

/-- `cleanup_orphan_sub_events` (lines 4-40): all subs, archived included,
are checked against the id set of all mains; each orphan row object is
deleted, which on the list store is exactly a filter. -/
def cleanup_orphan_sub_events (s : Store) : Store × Nat :=
  let existing_main_ids := s.mains.map (·.id)
  ({ s with subs := s.subs.filter (fun sb => !(isOrphanSub existing_main_ids sb)) },
   (s.subs.filter (isOrphanSub existing_main_ids)).length)

/-! ## Python exceptions reached by the modelled control flow -/

inductive PyErr where
  | attributeError
  | typeError
  | indexError
deriving DecidableEq, Repr

/-- `db.delete(main_event)`: deletes the main row and, through the
`all, delete-orphan` cascade on `MainEventORM.sub_events`
(database_events.py, line 75), every child sub row. -/
def deleteMainCascade (s : Store) (i : String) : Store :=
  { s with mains := s.mains.filter (fun m => !(m.id == i)),
           subs := s.subs.filter (fun sb => !(sb.main_event_id == some i)) }

/-- `db.delete(sub_event)` on a sub row. -/
def deleteSubRow (s : Store) (i : String) : Store :=
  { s with subs := s.subs.filter (fun sb => !(sb.id == i)) }

/-- Lexicographic comparison of character lists by code point — the order
both SQLite (memcmp on UTF-8) and Python apply to these id strings. -/
def charListLe : List Char → List Char → Bool
  | [], _ => true
  | _ :: _, [] => false
  | a :: as, b :: bs =>
      if a.toNat < b.toNat then true
      else if b.toNat < a.toNat then false
      else charListLe as bs

def strLe (a b : String) : Bool :=
  charListLe a.toList b.toList

/-- `ORDER BY id` ascending, as a stable insertion sort (ids are unique
primary keys, so the resulting order is unique). -/
def insertById {α : Type} (key : α → String) (x : α) : List α → List α
  | [] => [x]
  | y :: ys => if strLe (key x) (key y) then x :: y :: ys else y :: insertById key x ys

def sortById {α : Type} (key : α → String) (l : List α) : List α :=
  l.foldr (insertById key) []

/-! ## Intra-Table Duplicate Remover (remove_internal_duplicates.py,
lines 159-293) -/

/-- Appending an event to its duplicate group inside the dict of
`delete_internal_duplicates`. -/
def addToIntGroups {α : Type} (g : List (Int × List α)) (k : Int) (e : α) :
    List (Int × List α) :=
  match g with
  | [] => [(k, [e])]
  | p :: rest => if p.1 = k then (p.1, p.2 ++ [e]) :: rest else p :: addToIntGroups rest k e

/-- The grouping loop of `delete_internal_duplicates` (lines 183-195): the
i-th decision with a non-null group indexes `considered_events[i]`.  The
loop performs no length check, so a decision position beyond the
considered rows raises IndexError; the raise happens during grouping,
before any deletion. -/
def buildDupGroupsAux {α : Type} (considered : List α) :
    List (Int × List α) → Nat → List (Option Int) → Except PyErr (List (Int × List α))
  | g, _, [] => .ok g
  | g, i, r :: rest =>
      match r with
      | none => buildDupGroupsAux considered g (i + 1) rest
      | some k =>
          match considered.get? i with
          | some e => buildDupGroupsAux considered (addToIntGroups g k e) (i + 1) rest
          | none => .error .indexError

def buildDupGroups {α : Type} (results : List (Option Int)) (considered : List α) :
    Except PyErr (List (Int × List α)) :=
  buildDupGroupsAux considered [] 0 results

/-- `delete_internal_duplicates` for the main table: within each group the
first (lowest-id) row is kept and the rest deleted; each deletion records
the number of children the store-level cascade removes with it.  Returns
the store with the pair (deleted, cascaded), or the grouping IndexError. -/
def delete_internal_main_duplicates (s : Store) (llm_results : List (Option Int))
    (considered : List MainEvent) : Except PyErr (Store × Nat × Nat) :=
  match buildDupGroups llm_results considered with
  | .error e => .error e
  | .ok groups =>
      .ok <| groups.foldl (fun acc g =>
        (g.2.drop 1).foldl (fun (acc : Store × Nat × Nat) ev =>
          (deleteMainCascade acc.1 ev.id, acc.2.1 + 1,
           acc.2.2 + (subsOfId acc.1.subs ev.id).length)) acc)
        (s, 0, 0)

/-- `delete_internal_duplicates` for the sub table (no cascade count). -/
def delete_internal_sub_duplicates (s : Store) (llm_results : List (Option Int))
    (considered : List SubEvent) : Except PyErr (Store × Nat) :=
  match buildDupGroups llm_results considered with
  | .error e => .error e
  | .ok groups =>
      .ok <| groups.foldl (fun acc g =>
        (g.2.drop 1).foldl (fun (acc : Store × Nat) ev =>
          (deleteSubRow acc.1 ev.id, acc.2 + 1)) acc)
        (s, 0)

/-- `cleanup_internal_duplicates` (lines 228-293).  The oracle parameter of
each table is the outcome of `call_llm_for_internal_duplicates`: `.error`
is a raised exception (an unparseable body included, since `json.loads`
there is unguarded), which the caller catches with zero effect; `.ok []`
is the empty-response fallback; `.ok l` a decoded decision array.  A
grouping IndexError is likewise caught before any deletion.  Returns the
store with (mains deleted, cascaded subs, subs deleted). -/
def cleanup_internal_duplicates (s : Store)
    (oracleMains oracleSubs : Except Unit (List (Option Int))) :
    Store × Nat × Nat × Nat :=
  let consideredM := sortById (·.id) (s.mains.filter (fun m => !m.archived_event))
  let afterM :=
    if consideredM.isEmpty then (s, 0, 0)
    else
      match oracleMains with
      | .error _ => (s, 0, 0)
      | .ok results =>
          match delete_internal_main_duplicates s results consideredM with
          | .ok r => r
          | .error _ => (s, 0, 0)
  let s1 := afterM.1
  let consideredS := sortById (·.id) (s1.subs.filter (fun sb => !sb.archived_event))
  let afterS :=
    if consideredS.isEmpty then (s1, 0)
    else
      match oracleSubs with
      | .error _ => (s1, 0)
      | .ok results =>
          match delete_internal_sub_duplicates s1 results consideredS with
          | .ok r => r
          | .error _ => (s1, 0)
  (afterS.1, afterM.2.1, afterM.2.2, afterS.2)

/-! ## Cross-Table Duplicate Remover (remove_internal_duplicates.py,
lines 410-464)

The sub query of line 427 writes the Python `and` of two column
expressions; `and` evaluates the truthiness of the first comparison (which
SQLAlchemy defines as comparing operand hashes, giving False) and so the
whole filter degenerates to the first clause alone: the query returns all
non-archived subs with the parent condition dropped. -/

/-- The decision loop (lines 438-453), threading deletions.  A decision
naming sub index `idx` is looked up as a sub PRIMARY KEY: the query
compares the string id column with the integer, which SQLite evaluates by
converting the integer to its decimal text.  When no row matches, the next
line dereferences None and raises AttributeError, which the broad `except`
catches, ending the phase with the deletions made so far.  When a row does
match, the row deleted is the PARENT main of that sub (with its cascade),
not the subject main of the decision. -/
def crossTableLoop (db : Store) (n : Nat) : List (Option Int) → Store × Nat
  | [] => (db, n)
  | r :: rest =>
      match r with
      | none => crossTableLoop db n rest
      | some idx =>
          match db.subs.find? (fun sb => sb.id == toString idx) with
          | none => (db, n)
          | some current_sub =>
              match current_sub.main_event_id with
              | none => crossTableLoop db n rest
              | some pid =>
                  match db.mains.find? (fun m => m.id == pid) with
                  | none => crossTableLoop db n rest
                  | some mev => crossTableLoop (deleteMainCascade db mev.id) (n + 1) rest

/-- `cleanup_cross_table_duplicates` (lines 410-464). -/
def cleanup_cross_table_duplicates (db : Store)
    (oracle : Except Unit (List (Option Int))) : Store × Nat :=
  let main_events := sortById (·.id) (db.mains.filter (fun m => !m.archived_event))
  let sub_events := sortById (·.id) (db.subs.filter (fun sb => !sb.archived_event))
  if main_events.isEmpty || sub_events.isEmpty then (db, 0)
  else
    match oracle with
    | .error _ => (db, 0)
    | .ok results => crossTableLoop db 0 results

/-! ## New-Entity Duplicate Filter and Self-Correcting Classifier
(event_duplicator.py) -/

/-- One decision object of `MAIN_EVENT_BATCH_SCHEMA`. -/
structure MainDec where
  is_new : Bool
  matching_existing_event_id : Option String := none
deriving DecidableEq, Repr

/-- One decision object of `BATCH_SCHEMA`. -/
structure SubDec where
  is_new : Bool
deriving DecidableEq, Repr

/-- One decision object of `SUBEVENT_CORRECTION_SCHEMA`. -/
structure CorrDec where
  is_new : Bool
  matches_main_event_id : Option String := none
  new_main_event_temp_key : Option String := none
deriving DecidableEq, Repr

/-- Outcome of one `call_llm_decisions` invocation: `raises` is any
exception escaping the helper (network failure, a missing candidates
attribute, and so on — only json.JSONDecodeError is caught there);
`decodeFail` is the caught decode failure, returning None; `returns` a
decoded array. -/
inductive CallOutcome (D : Type) where
  | raises
  | decodeFail
  | returns (l : List D)
deriving DecidableEq, Repr

/-- Python dict insertion (last write wins, key position preserved). -/
def dictInsert (m : List (String × String)) (k v : String) : List (String × String) :=
  match m with
  | [] => [(k, v)]
  | e :: rest => if e.1 = k then (k, v) :: rest else e :: dictInsert rest k v

/-- Python `dict.get`. -/
def dictGet (m : List (String × String)) (k : String) : Option String :=
  (m.find? (fun e => e.1 == k)).map (·.2)

/-- `filter_new_events` (event_duplicator.py, lines 112-189), as invoked
for sub-candidates against existing subs: fail-open — a null, empty or
length-mismatched decision array keeps every candidate. -/
def filter_new_events (candidates : List Cand) (existing_events : List SubEvent)
    (decisions : Option (List SubDec)) : List Cand :=
  if candidates.isEmpty then []
  else if existing_events.isEmpty then candidates
  else
    match decisions with
    | none => candidates
    | some ds =>
        if ds.isEmpty then candidates
        else if ds.length ≠ candidates.length then candidates
        else ((candidates.zip ds).filter (fun cd => cd.2.is_new)).map (·.1)

/-- `filter_new_main_events` (event_duplicator.py, lines 192-321): returns
the candidates judged new together with the temp-key remapping built from
judged-duplicate candidates.  A null or empty decision array or a length
mismatch returns no candidates and no mapping — the fail-closed branch. -/
def filter_new_main_events (candidates : List Cand)
    (existing_main_events : List MainEvent) (existing_sub_events : List SubEvent)
    (decisions : Option (List MainDec)) : List Cand × List (String × String) :=
  if candidates.isEmpty then ([], [])
  else if existing_main_events.isEmpty && existing_sub_events.isEmpty then (candidates, [])
  else
    match decisions with
    | none => ([], [])
    | some ds =>
        if ds.isEmpty then ([], [])
        else if ds.length ≠ candidates.length then ([], [])
        else
          let existing_id_to_temp_key :=
            existing_main_events.foldl (fun m e =>
              match e.main_event_temp_key with
              | some k => if k = "" then m else dictInsert m e.id k
              | none => m) []
          (candidates.zip ds).foldl (fun (acc : List Cand × List (String × String)) cd =>
            if cd.2.is_new then (acc.1 ++ [cd.1], acc.2)
            else
              match cd.2.matching_existing_event_id, cd.1.Main_Event_Temp_Key with
              | some mid, some ck =>
                  if mid = "" || ck = "" then acc
                  else
                    match dictGet existing_id_to_temp_key mid with
                    | some ek => if ek ≠ ck then (acc.1, dictInsert acc.2 ck ek) else acc
                    | none => acc
              | _, _ => acc) ([], [])

/-- `filter_new_sub_events_with_correction` (event_duplicator.py, lines
324-452): first filters candidates against existing subs (fail-open), then
checks the survivors against existing mains for misclassification
corrections.  `.error` propagates a raised exception of either LLM call to
the orchestrator.  Each call can only raise when it actually happens —
the respective comparison lists must be nonempty. -/
def filter_new_sub_events_with_correction (candidates : List Cand)
    (existing_sub_events : List SubEvent) (existing_main_events : List MainEvent)
    (o1 : CallOutcome SubDec) (o2 : CallOutcome CorrDec) :
    Except Unit (List Cand × List String) :=
  if candidates.isEmpty then .ok ([], [])
  else if existing_sub_events.isEmpty && existing_main_events.isEmpty then .ok (candidates, [])
  else
    let firstRes : Except Unit (List Cand) :=
      if existing_sub_events.isEmpty then
        .ok (filter_new_events candidates existing_sub_events none)
      else
        match o1 with
        | .raises => .error ()
        | .decodeFail => .ok (filter_new_events candidates existing_sub_events none)
        | .returns l => .ok (filter_new_events candidates existing_sub_events (some l))
    match firstRes with
    | .error e => .error e
    | .ok new_sub_events =>
        if new_sub_events.isEmpty then .ok ([], [])
        else if existing_main_events.isEmpty then .ok (new_sub_events, [])
        else
          match o2 with
          | .raises => .error ()
          | .decodeFail => .ok (new_sub_events, [])
          | .returns ds =>
              if ds.isEmpty then .ok (new_sub_events, [])
              else if ds.length ≠ new_sub_events.length then .ok (new_sub_events, [])
              else
                .ok ((new_sub_events.zip ds).foldl
                  (fun (acc : List Cand × List String) cd =>
                    match cd.2.matches_main_event_id with
                    | some mid =>
                        if mid ≠ "" then
                          (acc.1 ++ [{ cd.1 with Main_Event_Temp_Key := cd.2.new_main_event_temp_key }],
                           acc.2 ++ [mid])
                        else if cd.2.is_new then (acc.1 ++ [cd.1], acc.2)
                        else acc
                    | none =>
                        if cd.2.is_new then (acc.1 ++ [cd.1], acc.2) else acc)
                  ([], []))

/-! ## Insertion and Linking (event_pipeline.py, lines 161-388) -/

/-- The value the orchestrator binds to `new_main_events_raw` in lines
184-191: on success the WHOLE pair returned by `filter_new_main_events`,
without tuple unpacking; on a raised exception, the raw candidate list
(the except branch assumes every main-candidate new). -/
inductive MainsFilterStep where
  | pair (p : List Cand × List (String × String))
  | allNew (cands : List Cand)
deriving DecidableEq, Repr

def pipelineFilterMains (cands : List Cand) (exM : List MainEvent)
    (exS : List SubEvent) (o : CallOutcome MainDec) : MainsFilterStep :=
  match o with
  | .raises => .allNew cands
  | .decodeFail => .pair (filter_new_main_events cands exM exS none)
  | .returns l => .pair (filter_new_main_events cands exM exS (some l))

/-- The sub-insertion loop of lines 290-348: it constructs
`SubEventORM(..., language=..., registration_url=..., meeting_url=...)`,
but `SubEventORM` maps none of those keywords, so the declarative
constructor raises TypeError on the first candidate with a truthy title.
When every candidate is skipped for lacking a title, nothing is inserted
and the backfill loop of lines 351-385 iterates an empty dict. -/
def insertSubsPhase (db1 : Store) (newSubs : List Cand) : Except (PyErr × Store) Store :=
  if newSubs.any (fun e => !(strBlank e.Title)) then .error (.typeError, db1)
  else .ok db1

/-- Steps 3 to 5 of `insert_non_duplicate_events` (lines 228-388), applied
to the committed store after the step-2.1 deletions.  In the `pair` case
`new_main_events_raw` is the (list, dict) pair itself; the loop of line 233
iterates its two elements and calls .get on the first, a list object:
AttributeError before anything is inserted.  In the `allNew` case the loop
constructs `MainEventORM(..., language=..., registration_url=...,
meeting_url=...)`; none of these keywords is a mapped column, so the
declarative constructor raises TypeError on the first candidate with a
truthy title. -/
def insertPhase3 (db1 : Store) (mainsStep : MainsFilterStep) (newSubs : List Cand) :
    Except (PyErr × Store) Store :=
  match mainsStep with
  | .pair _ => .error (.attributeError, db1)
  | .allNew evs =>
      if evs.any (fun e => !(strBlank e.Title)) then .error (.typeError, db1)
      else insertSubsPhase db1 newSubs

/-- `insert_non_duplicate_events` (event_pipeline.py, lines 161-388).  The
result carries the committed store: on an uncaught exception the pending
session changes of the crashing step are discarded, but the deletions of
step 2.1 were committed beforehand. -/
def insert_non_duplicate_events (db : Store) (main_events_raw sub_events_raw : List Cand)
    (oMain : CallOutcome MainDec) (oSubNew : CallOutcome SubDec)
    (oSubCorr : CallOutcome CorrDec) : Except (PyErr × Store) Store :=
  if main_events_raw.isEmpty && sub_events_raw.isEmpty then .ok db
  else
    let existing_main_events := db.mains.filter (fun m => !m.archived_event)
    let existing_sub_events := db.subs.filter (fun sb => !sb.archived_event)
    let mainsStep := pipelineFilterMains main_events_raw existing_main_events
      existing_sub_events oMain
    let subsStep : List Cand × List String :=
      match filter_new_sub_events_with_correction sub_events_raw existing_sub_events
          existing_main_events oSubNew oSubCorr with
      | .ok r => r
      | .error _ => (sub_events_raw, [])
    let db1 := subsStep.2.foldl (fun (st : Store) mid =>
      match st.mains.find? (fun m => m.id == mid) with
      | some mev => deleteMainCascade st mev.id
      | none => st) db
    insertPhase3 db1 mainsStep subsStep.1

/-- Main-table contents of an `insert_non_duplicate_events` outcome. -/
def resultMains : Except (PyErr × Store) Store → List MainEvent
  | .ok s => s.mains
  | .error e => e.2.mains

/-- Sub-table contents of an `insert_non_duplicate_events` outcome. -/
def resultSubs : Except (PyErr × Store) Store → List SubEvent
  | .ok s => s.subs
  | .error e => e.2.subs

/-- The exception, if any, of an `insert_non_duplicate_events` outcome. -/
def resultErr : Except (PyErr × Store) Store → Option PyErr
  | .ok _ => none
  | .error e => some e.1

/-- The committed store of an `insert_non_duplicate_events` outcome. -/
def resultStore : Except (PyErr × Store) Store → Store
  | .ok s => s
  | .error e => e.2

/-! ## Concrete instances used by the claim theorems -/

/-- Persisted store for the temp-key remap scenario: one main holding
temp-key k0. -/
def c1Db : Store :=
  { mains := [{ id := "m0", title := some "A", main_event_temp_key := some "k0" }],
    subs := [] }

/-- Incoming main-candidate duplicating the persisted main, under fresh
temp-key k1. -/
def c1MainCand : Cand :=
  { Title := some "A", Main_Event_Temp_Key := some "k1", Start_Date := some "2025-06-20" }

/-- Sibling sub-candidate carrying the same fresh temp-key k1. -/
def c1SubCand : Cand :=
  { Title := some "S", Main_Event_Temp_Key := some "k1", Start_Date := some "2025-06-20" }

/-- A store with one persisted main, against which a failing oracle call is
exercised. -/
def c2Db : Store :=
  { mains := [{ id := "m0", title := some "Old" }], subs := [] }

def c2Cand : Cand := { Title := some "New" }

/-- Cross-table scenario A: uuid-like ids; the sub duplicated by the first
main sits at index 0 of the submitted sub list. -/
def c3StoreA : Store :=
  { mains := [{ id := "a1" }, { id := "a2" }],
    subs := [{ id := "s1", main_event_id := some "a2" }] }

/-- Cross-table scenario B: a sub whose id string happens to equal the
decimal text of the returned index, exposing which row actually gets
deleted. -/
def c3StoreB : Store :=
  { mains := [{ id := "1" }, { id := "2" }],
    subs := [{ id := "0", main_event_id := some "2" }] }

/-- Three non-archived mains submitted to the intra-table remover. -/
def c4Store : Store :=
  { mains := [{ id := "1" }, { id := "2" }, { id := "3" }], subs := [] }

/-- Orphan-sweep store: one main, one properly linked sub, one parentless
sub, one sub referencing a deleted main. -/
def c8Store : Store :=
  { mains := [{ id := "m1" }],
    subs := [{ id := "s1", main_event_id := some "m1" },
             { id := "s2", main_event_id := none },
             { id := "s3", main_event_id := some "gone" }] }

/-- Reference day for the filter and archiver scenarios. -/
def c7Today : PyDate := ⟨2025, 6, 15⟩

/-- A main-candidate whose temp-key has related sub-candidates. -/
def c7Main : Cand := { Title := some "M1", Main_Event_Temp_Key := some "kA" }

def c7Mains : List Cand := [c7Main]

/-- One past and one future related sub-candidate under the same temp-key. -/
def c7Subs : List Cand :=
  [{ Title := some "S1", Main_Event_Temp_Key := some "kA", End_Date := some "2025-06-10" },
   { Title := some "S2", Main_Event_Temp_Key := some "kA", End_Date := some "2025-06-20" }]

/-- The past related sub-candidate of the C7 scenario. -/
def c7PastSub : Cand :=
  { Title := some "S1", Main_Event_Temp_Key := some "kA", End_Date := some "2025-06-10" }

/-- A sub-candidate with a future window but no temp-key. -/
def c10Sub : Cand := { Title := some "S", End_Date := some "2025-06-20" }

/-- The main of the C6 counterexample: its own end date is after
`c7Today`, but its single child is past. -/
def c6Main : MainEvent := { id := "m1", end_date := some "2025-06-20" }

def c6Store : Store :=
  { mains := [c6Main],
    subs := [{ id := "s1", main_event_id := some "m1", end_date := some "2025-06-10" }] }

/-- A non-archived main with one past and one future child: liveness must
keep the whole cluster. -/
def c6LiveMain : MainEvent := { id := "m1" }

def c6LiveStore : Store :=
  { mains := [c6LiveMain],
    subs := [{ id := "s1", main_event_id := some "m1", end_date := some "2025-06-10" },
             { id := "s2", main_event_id := some "m1", end_date := some "2025-06-20" }] }

/-- A non-archived main with two past children for the C5 witness. -/
def c5Main : MainEvent := { id := "m1", end_date := some "2025-06-01" }

def c5Store : Store :=
  { mains := [c5Main],
    subs := [{ id := "s1", main_event_id := some "m1", end_date := some "2025-06-10" },
             { id := "s2", main_event_id := some "m1", start_date := some "2025-06-12" }] }

/-! # Theorems -/

/-! ## Helper lemmas -/

/-- The step-2.1 deletion fold of `insert_non_duplicate_events` only ever
removes main rows. -/
theorem mainsDeleteFold_subset (l : List String) (db : Store) :
    (l.foldl (fun (st : Store) mid =>
      match st.mains.find? (fun m => m.id == mid) with
      | some mev => deleteMainCascade st mev.id
      | none => st) db).mains ⊆ db.mains := by
  induction l generalizing db with
  | nil => exact fun a h => h
  | cons a t ih =>
      simp only [List.foldl_cons]
      refine (ih _).trans ?_
      cases h : db.mains.find? (fun m => m.id == a) with
      | none => simp [h]
      | some mev =>
          simp only [h, deleteMainCascade]
          exact List.filter_subset' _

/-- Every outcome of the final insertion stage carries exactly the
main-table contents it was given: each branch either crashes before
inserting or inserts nothing. -/
theorem insertPhase3_mains (db1 : Store) (step : MainsFilterStep) (newSubs : List Cand) :
    resultMains (insertPhase3 db1 step newSubs) = db1.mains := by
  cases step with
  | pair p => rfl
  | allNew evs =>
      unfold insertPhase3
      cases h : evs.any (fun e => !(strBlank e.Title)) with
      | true => simp [h, resultMains]
      | false =>
          simp only [h, Bool.false_eq_true, if_false, insertSubsPhase]
          cases h2 : newSubs.any (fun e => !(strBlank e.Title)) with
          | true => simp [resultMains]
          | false => simp [resultMains]

/-- No execution of the insertion step ever adds a main row. -/
theorem resultMains_subset (db : Store) (mr sr : List Cand)
    (oM : CallOutcome MainDec) (oS : CallOutcome SubDec) (oC : CallOutcome CorrDec) :
    resultMains (insert_non_duplicate_events db mr sr oM oS oC) ⊆ db.mains := by
  unfold insert_non_duplicate_events
  split
  · exact fun a h => h
  · rw [insertPhase3_mains]
    exact mainsDeleteFold_subset _ _

/-! ## Claim C1: temp-key remap propagation (code bug)

The filter does build the remapping k1 to k0, but the orchestrator binds
the (candidates, mapping) pair itself to `new_main_events_raw`; the
insertion loop then iterates the pair and dies with AttributeError, so the
mapping is never consulted and the sibling sub-candidate is never inserted
at all, let alone linked to the main holding k0. -/

/-- C1: in the remap scenario the New-Entity filter produces the mapping
k1 to k0, yet the run aborts with AttributeError before any insertion and
the store ends with no sub rows whatsoever — the sibling sub-candidate is
not inserted with the id of the main holding k0, contradicting the claimed
remap propagation. -/
theorem temp_key_remap_broken :
    filter_new_main_events [c1MainCand] c1Db.mains []
        (some [{ is_new := false, matching_existing_event_id := some "m0" }]) =
      ([], [("k1", "k0")]) ∧
    resultErr (insert_non_duplicate_events c1Db [c1MainCand] [c1SubCand]
        (CallOutcome.returns [{ is_new := false, matching_existing_event_id := some "m0" }])
        (CallOutcome.returns []) (CallOutcome.returns [{ is_new := true }])) =
      some PyErr.attributeError ∧
    resultStore (insert_non_duplicate_events c1Db [c1MainCand] [c1SubCand]
        (CallOutcome.returns [{ is_new := false, matching_existing_event_id := some "m0" }])
        (CallOutcome.returns []) (CallOutcome.returns [{ is_new := true }])) = c1Db ∧
    resultSubs (insert_non_duplicate_events c1Db [c1MainCand] [c1SubCand]
        (CallOutcome.returns [{ is_new := false, matching_existing_event_id := some "m0" }])
        (CallOutcome.returns []) (CallOutcome.returns [{ is_new := true }])) = [] := by
  refine ⟨by decide, by decide, by decide, by decide⟩

/-! ## Claim C2: fail-closed main insertion (corrected)

Failures the filter itself detects (a null or empty decision array, a
length mismatch) are indeed fail-closed.  But an exception RAISED by the
oracle call escapes to the orchestrator, whose except branch deliberately
treats every main-candidate as new — refuting the claim that a failure
never results in all candidates being assumed new.  (Zero main rows still
reach the store on every path, only because the insertion loop itself
always crashes.) -/

/-- C2 counterexample: with one persisted main and one candidate, a raised
oracle error makes the orchestrator bind the full raw candidate list — all
one of the candidates is treated as new, not zero. -/
theorem main_filter_raise_treats_all_as_new :
    pipelineFilterMains [c2Cand] c2Db.mains [] CallOutcome.raises =
      MainsFilterStep.allNew [c2Cand] ∧ [c2Cand] ≠ [] := by
  refine ⟨rfl, by decide⟩

/-- C2 amended: a failure the filter detects (null or empty decision array,
or one whose length differs from the candidate count) makes
`filter_new_main_events` treat zero candidates as new; and no run of the
insertion step ever adds a main row. -/
theorem main_oracle_detected_failure_fail_closed
    (cands : List Cand) (exM : List MainEvent) (exS : List SubEvent)
    (ds : Option (List MainDec)) (db : Store) (subsRaw : List Cand)
    (oS : CallOutcome SubDec) (oC : CallOutcome CorrDec)
    (hc : cands ≠ [])
    (hex : exM ≠ [] ∨ exS ≠ [])
    (hfail : ds = none ∨ ds = some [] ∨ ∃ l, ds = some l ∧ l.length ≠ cands.length) :
    filter_new_main_events cands exM exS ds = ([], []) ∧
    resultMains (insert_non_duplicate_events db cands subsRaw
      (match ds with
       | none => CallOutcome.decodeFail
       | some l => CallOutcome.returns l) oS oC) ⊆ db.mains := by
  refine ⟨?_, resultMains_subset _ _ _ _ _ _⟩
  have h1 : cands.isEmpty = false := by
    cases cands with
    | nil => exact absurd rfl hc
    | cons a t => rfl
  have h2 : (exM.isEmpty && exS.isEmpty) = false := by
    rcases hex with h | h
    · cases exM with
      | nil => exact absurd rfl h
      | cons a t => rfl
    · cases exS with
      | nil => exact absurd rfl h
      | cons a t => simp
  rcases hfail with h | h | ⟨l, hl, hne⟩
  · subst h
    simp [filter_new_main_events, h1, h2]
  · subst h
    simp [filter_new_main_events, h1, h2]
  · subst hl
    cases l with
    | nil => simp [filter_new_main_events, h1, h2]
    | cons d t =>
        simp [filter_new_main_events, h1, h2]
        intro hcontra
        exact absurd hcontra (by simpa using hne)

/-- Witness for the amended C2 theorem at a concrete failing response. -/
theorem main_oracle_detected_failure_fail_closed_witness :
    (([c2Cand] : List Cand) ≠ [] ∧ (c2Db.mains ≠ [] ∨ ([] : List SubEvent) ≠ [])) ∧
    (filter_new_main_events [c2Cand] c2Db.mains [] none = ([], []) ∧
     resultMains (insert_non_duplicate_events c2Db [c2Cand] [] CallOutcome.decodeFail
       (CallOutcome.returns []) (CallOutcome.returns [])) ⊆ c2Db.mains) :=
  ⟨⟨by decide, Or.inl (by decide)⟩,
   main_oracle_detected_failure_fail_closed [c2Cand] c2Db.mains [] none c2Db []
     (CallOutcome.returns []) (CallOutcome.returns [])
     (by decide) (Or.inl (by decide)) (Or.inl rfl)⟩

/-! ## Claim C3: cross-table deletion target (code bug)

The loop ignores the decision position entirely: it looks the returned
0-based sub index up as a sub PRIMARY KEY.  Against the uuid string keys of
the schema the lookup finds nothing and the phase aborts through its broad
except with zero deletions (scenario A).  And when a sub id does textually
match the integer, the row deleted is that sub's PARENT main — together
with its children via the cascade, so a Sub row IS deleted — not the i-th
subject main (scenario B). -/

/-- C3: in scenario A the first decision names sub index 0, the claim says
subject main a1 is deleted, but nothing at all is deleted; in scenario B
the 0-th subject is main 1, yet the row deleted is main 2 (the parent of
the matched sub) and the sub row vanishes with it by cascade. -/
theorem cross_table_deletes_wrong_row :
    cleanup_cross_table_duplicates c3StoreA (Except.ok [some 0, none]) = (c3StoreA, 0) ∧
    (sortById (·.id) (c3StoreB.mains.filter (fun m => !m.archived_event))).map (·.id) =
      ["1", "2"] ∧
    (cleanup_cross_table_duplicates c3StoreB (Except.ok [some 0])).1.mains.map (·.id) =
      ["1"] ∧
    (cleanup_cross_table_duplicates c3StoreB (Except.ok [some 0])).1.subs = [] ∧
    (cleanup_cross_table_duplicates c3StoreB (Except.ok [some 0])).2 = 1 := by
  refine ⟨by decide, by decide, by decide, by decide, by decide⟩

/-! ## Claim C4: intra-table fail-safety (corrected)

The remover never compares the response length with the row count.  A
failed call or an empty response deletes nothing, but a short non-empty
response is applied positionally to the prefix and deletes rows. -/

/-- C4 counterexample: three non-archived mains are submitted, the response
has length two — a mismatch — yet one main row is deleted. -/
theorem intra_dedup_short_response_deletes :
    (sortById (·.id) (c4Store.mains.filter (fun m => !m.archived_event))).length = 3 ∧
    cleanup_internal_duplicates c4Store (Except.ok [some 1, some 1]) (Except.ok []) =
      ({ mains := [{ id := "1" }, { id := "3" }], subs := [], nextId := 0 }, 1, 0, 0) := by
  refine ⟨by decide, by decide⟩

/-- C4 amended: the intra-table phase deletes nothing when an oracle call
raises or returns the empty response. -/
theorem intra_dedup_failure_no_deletions (s : Store)
    (oM oS : Except Unit (List (Option Int)))
    (hM : oM = Except.error () ∨ oM = Except.ok [])
    (hS : oS = Except.error () ∨ oS = Except.ok []) :
    cleanup_internal_duplicates s oM oS = (s, 0, 0, 0) := by
  have hM1 : ∀ c : List MainEvent,
      (if c.isEmpty then (s, 0, 0)
       else match oM with
            | Except.error _ => (s, 0, 0)
            | Except.ok results =>
                match delete_internal_main_duplicates s results c with
                | Except.ok r => r
                | Except.error _ => (s, 0, 0)) = (s, (0 : Nat), (0 : Nat)) := by
    intro c
    rcases hM with h | h <;> subst h <;>
      simp [delete_internal_main_duplicates, buildDupGroups, buildDupGroupsAux]
  have hS1 : ∀ (st : Store) (c : List SubEvent),
      (if c.isEmpty then (st, 0)
       else match oS with
            | Except.error _ => (st, 0)
            | Except.ok results =>
                match delete_internal_sub_duplicates st results c with
                | Except.ok r => r
                | Except.error _ => (st, 0)) = (st, (0 : Nat)) := by
    intro st c
    rcases hS with h | h <;> subst h <;>
      simp [delete_internal_sub_duplicates, buildDupGroups, buildDupGroupsAux]
  unfold cleanup_internal_duplicates
  simp only [hM1, hS1]

/-- Witness for the amended C4 theorem. -/
theorem intra_dedup_failure_no_deletions_witness :
    ((Except.error () : Except Unit (List (Option Int))) = Except.error () ∨
      (Except.error () : Except Unit (List (Option Int))) = Except.ok []) ∧
    cleanup_internal_duplicates c4Store (Except.error ()) (Except.error ()) =
      (c4Store, 0, 0, 0) :=
  ⟨Or.inl rfl,
   intra_dedup_failure_no_deletions c4Store (Except.error ()) (Except.error ())
     (Or.inl rfl) (Or.inl rfl)⟩

/-! ## Claim C8: orphan reconciler exactness (confirmed) -/

/-- C8: one pass deletes exactly the subs whose parent reference is absent
or names no main in the store (archived subs included), leaves every other
sub and all mains untouched, and returns the number deleted — so a sub
orphaned by an earlier deletion is gone after exactly one pass.  The falsy
check of the source also fires on an empty-string reference; since main
ids are nonempty uuid strings, the hypothesis that no main has the empty
id makes that coincide with the claimed criterion. -/
theorem orphan_reconciler_exact (s : Store)
    (hid : ∀ m ∈ s.mains, m.id ≠ "") :
    (cleanup_orphan_sub_events s).1.mains = s.mains ∧
    (cleanup_orphan_sub_events s).1.subs =
      s.subs.filter (fun sb =>
        match sb.main_event_id with
        | none => false
        | some p => (s.mains.map (·.id)).contains p) ∧
    (cleanup_orphan_sub_events s).2 =
      (s.subs.filter (fun sb =>
        match sb.main_event_id with
        | none => true
        | some p => !((s.mains.map (·.id)).contains p))).length := by
  have hcont : ((s.mains.map (·.id)).contains "") = false := by
    by_contra hcon
    rw [Bool.not_eq_false] at hcon
    rcases List.contains_iff_exists_mem_beq.mp hcon with ⟨x, hx, hbeq⟩
    have hxe : ("" : String) = x := by simpa using hbeq
    rcases List.mem_map.mp hx with ⟨m, hm, hme⟩
    exact hid m hm (hme.trans hxe.symm)
  have hpt : ∀ sb : SubEvent,
      (!(isOrphanSub (s.mains.map (·.id)) sb)) =
        (match sb.main_event_id with
         | none => false
         | some p => (s.mains.map (·.id)).contains p) := by
    intro sb
    cases hme : sb.main_event_id with
    | none => simp [isOrphanSub, hme]
    | some p =>
        by_cases hp : p = ""
        · subst hp
          simp [isOrphanSub, hme, hcont]
          exact hid
        · simp [isOrphanSub, hme, hp]
  have hpt2 : ∀ sb : SubEvent,
      (isOrphanSub (s.mains.map (·.id)) sb) =
        (match sb.main_event_id with
         | none => true
         | some p => !((s.mains.map (·.id)).contains p)) := by
    intro sb
    have := hpt sb
    cases hme : sb.main_event_id with
    | none => simp [isOrphanSub, hme]
    | some p =>
        by_cases hp : p = ""
        · subst hp
          simp [isOrphanSub, hme, hcont]
          exact hid
        · simp [isOrphanSub, hme, hp]
  refine ⟨rfl, ?_, ?_⟩
  · show s.subs.filter _ = s.subs.filter _
    exact List.filter_congr (fun sb _ => hpt sb)
  · show (s.subs.filter _).length = (s.subs.filter _).length
    rw [List.filter_congr (fun sb _ => hpt2 sb)]

/-- Witness for C8 on a concrete store: the linked sub stays, the
parentless sub and the dangling-reference sub are both deleted and
counted. -/
theorem orphan_reconciler_exact_witness :
    (∀ m ∈ c8Store.mains, m.id ≠ "") ∧
    ((cleanup_orphan_sub_events c8Store).1.mains = c8Store.mains ∧
     (cleanup_orphan_sub_events c8Store).1.subs =
       c8Store.subs.filter (fun sb =>
         match sb.main_event_id with
         | none => false
         | some p => (c8Store.mains.map (·.id)).contains p) ∧
     (cleanup_orphan_sub_events c8Store).2 =
       (c8Store.subs.filter (fun sb =>
         match sb.main_event_id with
         | none => true
         | some p => !((c8Store.mains.map (·.id)).contains p))).length) :=
  ⟨by decide, orphan_reconciler_exact c8Store (by decide)⟩

/-! ## Future-Window Filter characterization (for C7 and C10) -/

theorem findGroup_nil (k : String) : findGroup [] k = [] := rfl

theorem findGroup_cons (e : String × List Cand) (rest : List (String × List Cand))
    (k : String) :
    findGroup (e :: rest) k = if e.1 == k then e.2 else findGroup rest k := by
  simp only [findGroup, List.find?_cons]
  cases h : (e.1 == k) with
  | true => simp
  | false => simp

theorem findGroup_add_self (g : List (String × List Cand)) (k : String) (s : Cand) :
    findGroup (addToGroups g k s) k = findGroup g k ++ [s] := by
  induction g with
  | nil => simp [addToGroups, findGroup_cons, findGroup_nil]
  | cons e rest ih =>
      by_cases h : e.1 = k
      · simp [addToGroups, h, findGroup_cons]
      · have hb : (e.1 == k) = false := beq_false_of_ne h
        simp [addToGroups, h, findGroup_cons, hb, ih]

theorem findGroup_add_ne (g : List (String × List Cand)) (k k2 : String) (s : Cand)
    (h : k2 ≠ k) :
    findGroup (addToGroups g k s) k2 = findGroup g k2 := by
  induction g with
  | nil =>
      have hb : (k == k2) = false := beq_false_of_ne (Ne.symm h)
      simp [addToGroups, findGroup_cons, findGroup_nil, hb]
  | cons e rest ih =>
      by_cases he : e.1 = k
      · have hb : (e.1 == k2) = false := beq_false_of_ne (he ▸ Ne.symm h)
        have hb2 : (k == k2) = false := beq_false_of_ne (Ne.symm h)
        simp [addToGroups, he, findGroup_cons, hb, hb2]
      · simp [addToGroups, he, findGroup_cons, ih]

theorem buildGroups_go (subs : List Cand) :
    ∀ (g : List (String × List Cand)) (k : String), k ≠ "" →
      findGroup (subs.foldl
          (fun g s => if getKeyD s = "" then g else addToGroups g (getKeyD s) s) g) k =
        findGroup g k ++ subs.filter (fun s => getKeyD s == k) := by
  induction subs with
  | nil => intro g k hk; simp
  | cons s rest ih =>
      intro g k hk
      rw [List.foldl_cons, List.filter_cons]
      by_cases hs : getKeyD s = ""
      · have hb : (getKeyD s == k) = false :=
          beq_false_of_ne (by rw [hs]; exact fun h => hk h.symm)
        rw [if_pos hs, hb]
        simp only [Bool.false_eq_true, if_false]
        exact ih g k hk
      · rw [if_neg hs]
        by_cases hsk : getKeyD s = k
        · rw [ih _ k hk, hsk, findGroup_add_self]
          simp
        · have hb : (getKeyD s == k) = false := beq_false_of_ne hsk
          rw [ih _ k hk, findGroup_add_ne _ _ _ _ (fun h => hsk h.symm), hb]
          simp

theorem findGroup_buildGroups (subs : List Cand) (k : String) (hk : k ≠ "") :
    findGroup (buildGroups subs) k = subs.filter (fun s => getKeyD s == k) := by
  have := buildGroups_go subs [] k hk
  simpa [buildGroups, findGroup] using this

theorem buildGroups_go_blank (subs : List Cand) :
    ∀ g : List (String × List Cand),
      findGroup (subs.foldl
          (fun g s => if getKeyD s = "" then g else addToGroups g (getKeyD s) s) g) "" =
        findGroup g "" := by
  induction subs with
  | nil => intro g; rfl
  | cons s rest ih =>
      intro g
      rw [List.foldl_cons]
      by_cases hs : getKeyD s = ""
      · simp only [hs, if_pos rfl]
        exact ih g
      · simp only [hs, if_false]
        rw [ih _, findGroup_add_ne _ _ _ _ (fun h => hs h.symm)]

theorem findGroup_buildGroups_blank (subs : List Cand) :
    findGroup (buildGroups subs) "" = [] := by
  have := buildGroups_go_blank subs []
  simpa [buildGroups, findGroup] using this

/-- Every member of a built group carries exactly that (nonblank) key and
comes from the input subs. -/
theorem mem_findGroup_key (subs : List Cand) (k : String) (s : Cand)
    (h : s ∈ findGroup (buildGroups subs) k) :
    getKeyD s = k ∧ k ≠ "" ∧ s ∈ subs := by
  by_cases hk : k = ""
  · subst hk
    rw [findGroup_buildGroups_blank] at h
    exact absurd h (List.not_mem_nil s)
  · rw [findGroup_buildGroups subs k hk] at h
    have h2 := List.mem_filter.mp h
    refine ⟨by simpa using h2.2, hk, h2.1⟩

theorem ffe_foldl_char (today : PyDate) (groups : List (String × List Cand)) :
    ∀ (ms : List Cand) (acc : List Cand × List Cand),
      ms.foldl (ffeStep today groups) acc =
        (acc.1 ++ ms.filter (ffeKeep today groups),
         acc.2 ++ ms.flatMap (ffeContrib today groups)) := by
  intro ms
  induction ms with
  | nil => intro acc; simp
  | cons me rest ih =>
      intro acc
      rw [List.foldl_cons, ih]
      cases h1 : (findGroup groups (getKeyD me)).isEmpty with
      | true =>
          cases h2 : is_future_event today me with
          | true => simp [ffeStep, ffeKeep, ffeContrib, h1, h2, List.filter_cons]
          | false => simp [ffeStep, ffeKeep, ffeContrib, h1, h2, List.filter_cons]
      | false =>
          cases h2 : (findGroup groups (getKeyD me)).any (is_future_event today) with
          | true => simp [ffeStep, ffeKeep, ffeContrib, h1, h2, List.filter_cons]
          | false => simp [ffeStep, ffeKeep, ffeContrib, h1, h2, List.filter_cons]

theorem orphan_foldl_char (today : PyDate) (groups : List (String × List Cand)) :
    ∀ (ks : List String) (acc : List Cand),
      ks.foldl (orphanStep today groups) acc =
        acc ++ ks.flatMap (fun k => (findGroup groups k).filter (is_future_event today)) := by
  intro ks
  induction ks with
  | nil => intro acc; simp
  | cons k rest ih =>
      intro acc
      rw [List.foldl_cons, ih]
      simp [orphanStep]

/-- Closed form of the Future-Window Filter output. -/
theorem ffe_char (today : PyDate) (mains subs : List Cand) :
    filter_future_events_with_subevents today mains subs =
      (mains.filter (ffeKeep today (buildGroups subs)),
       mains.flatMap (ffeContrib today (buildGroups subs)) ++
         (((buildGroups subs).map Prod.fst).filter
             (fun k => !((mains.map getKeyD).contains k))).flatMap
           (fun k => (findGroup (buildGroups subs) k).filter (is_future_event today))) := by
  simp only [filter_future_events_with_subevents]
  rw [ffe_foldl_char, orphan_foldl_char]
  simp

theorem ffeContrib_subset (today : PyDate) (groups : List (String × List Cand)) (me : Cand) :
    ffeContrib today groups me ⊆ findGroup groups (getKeyD me) := by
  simp only [ffeContrib]
  split
  · exact List.nil_subset _
  · split
    · exact fun a h => h
    · exact List.nil_subset _

/-! ## Claim C7: Future-Window Filter cluster rule (confirmed) -/

/-- C7: a main-candidate with related sub-candidates (the group of its
temp-key) is kept iff at least one related sub is future (today or later,
or missing or unparseable dates), in which case every related sub is kept
as well; when no related sub is future, the main is dropped and none of
its related subs survives; a main-candidate with no related subs is kept
iff its own window is future. -/
theorem future_window_cluster_rule (today : PyDate) (mains subs : List Cand) (m s : Cand)
    (hm : m ∈ mains) :
    (findGroup (buildGroups subs) (getKeyD m) ≠ [] →
      ((m ∈ (filter_future_events_with_subevents today mains subs).1 ↔
          (findGroup (buildGroups subs) (getKeyD m)).any (is_future_event today) = true) ∧
       (s ∈ findGroup (buildGroups subs) (getKeyD m) →
        (findGroup (buildGroups subs) (getKeyD m)).any (is_future_event today) = true →
          s ∈ (filter_future_events_with_subevents today mains subs).2) ∧
       (s ∈ findGroup (buildGroups subs) (getKeyD m) →
        (findGroup (buildGroups subs) (getKeyD m)).any (is_future_event today) = false →
          s ∉ (filter_future_events_with_subevents today mains subs).2))) ∧
    (findGroup (buildGroups subs) (getKeyD m) = [] →
      (m ∈ (filter_future_events_with_subevents today mains subs).1 ↔
        is_future_event today m = true)) := by
  rw [ffe_char]
  have hkeepE : ∀ h1 : findGroup (buildGroups subs) (getKeyD m) = [],
      ffeKeep today (buildGroups subs) m = is_future_event today m := by
    intro h1
    simp [ffeKeep, h1]
  have hkeepNE : ∀ _ : findGroup (buildGroups subs) (getKeyD m) ≠ [],
      ffeKeep today (buildGroups subs) m =
        (findGroup (buildGroups subs) (getKeyD m)).any (is_future_event today) := by
    intro h1
    simp only [ffeKeep]
    rw [if_neg (by simpa [List.isEmpty_iff] using h1)]
  constructor
  · intro hne
    refine ⟨?_, ?_, ?_⟩
    · constructor
      · intro hmem
        have := (List.mem_filter.mp hmem).2
        rw [hkeepNE hne] at this
        exact this
      · intro hany
        exact List.mem_filter.mpr ⟨hm, by rw [hkeepNE hne]; exact hany⟩
    · intro hs hany
      apply List.mem_append_left
      refine List.mem_flatMap.mpr ⟨m, hm, ?_⟩
      simp only [ffeContrib]
      rw [if_neg (by simpa [List.isEmpty_iff] using hne), if_pos hany]
      exact hs
    · intro hs hany
      intro hmem
      have hkey : getKeyD s = getKeyD m := (mem_findGroup_key subs _ s hs).1
      have hkne : getKeyD m ≠ "" := (mem_findGroup_key subs _ s hs).2.1
      rcases List.mem_append.mp hmem with hin | hin
      · rcases List.mem_flatMap.mp hin with ⟨m2, hm2, hsm2⟩
        have hsub := ffeContrib_subset today (buildGroups subs) m2 hsm2
        have hkey2 : getKeyD s = getKeyD m2 := (mem_findGroup_key subs _ s hsub).1
        have hgeq : getKeyD m2 = getKeyD m := by rw [← hkey2, hkey]
        simp only [ffeContrib] at hsm2
        rw [hgeq] at hsm2
        rw [if_neg (by simpa [List.isEmpty_iff] using hne)] at hsm2
        rw [hany] at hsm2
        simp at hsm2
      · rcases List.mem_flatMap.mp hin with ⟨k2, hk2, hsk2⟩
        have hsg : s ∈ findGroup (buildGroups subs) k2 := (List.mem_filter.mp hsk2).1
        have hkey2 : getKeyD s = k2 := (mem_findGroup_key subs _ s hsg).1
        have hk2m : k2 = getKeyD m := by rw [← hkey2, hkey]
        have hnc := (List.mem_filter.mp hk2).2
        rw [hk2m] at hnc
        simp at hnc
        exact hnc m hm rfl
  · intro heq
    constructor
    · intro hmem
      have := (List.mem_filter.mp hmem).2
      rw [hkeepE heq] at this
      exact this
    · intro hfut
      exact List.mem_filter.mpr ⟨hm, by rw [hkeepE heq]; exact hfut⟩

/-- Witness for C7 on concrete candidates: the main with one past and one
future related sub — the hypothesis holds and the cluster rule applies
with the past sub as the tracked related sub-candidate. -/
theorem future_window_cluster_rule_witness :
    c7Main ∈ c7Mains ∧
    ((findGroup (buildGroups c7Subs) (getKeyD c7Main) ≠ [] →
      ((c7Main ∈ (filter_future_events_with_subevents c7Today c7Mains c7Subs).1 ↔
          (findGroup (buildGroups c7Subs) (getKeyD c7Main)).any
            (is_future_event c7Today) = true) ∧
       (c7PastSub ∈ findGroup (buildGroups c7Subs) (getKeyD c7Main) →
        (findGroup (buildGroups c7Subs) (getKeyD c7Main)).any
            (is_future_event c7Today) = true →
          c7PastSub ∈ (filter_future_events_with_subevents c7Today c7Mains c7Subs).2) ∧
       (c7PastSub ∈ findGroup (buildGroups c7Subs) (getKeyD c7Main) →
        (findGroup (buildGroups c7Subs) (getKeyD c7Main)).any
            (is_future_event c7Today) = false →
          c7PastSub ∉ (filter_future_events_with_subevents c7Today c7Mains c7Subs).2))) ∧
     (findGroup (buildGroups c7Subs) (getKeyD c7Main) = [] →
       (c7Main ∈ (filter_future_events_with_subevents c7Today c7Mains c7Subs).1 ↔
         is_future_event c7Today c7Main = true))) :=
  ⟨by decide,
   future_window_cluster_rule c7Today c7Mains c7Subs c7Main c7PastSub (by decide)⟩

/-! ## Claim C10: blank-temp-key sub-candidates can never survive the
filter (confirmed) -/

/-- C10: a sub-candidate whose temp-key is absent, null or empty is never
placed in any group — so it is neither clustered under a main-candidate
nor evaluated by the orphan rule — and never appears in the filter
output, whatever its dates. -/
theorem blank_key_sub_dropped (today : PyDate) (mains subs : List Cand) (c : Cand)
    (k : String) (hc : getKeyD c = "") :
    c ∉ findGroup (buildGroups subs) k ∧
    c ∉ (filter_future_events_with_subevents today mains subs).2 := by
  constructor
  · intro h
    have := mem_findGroup_key subs k c h
    exact this.2.1 (this.1.symm.trans hc)
  · rw [ffe_char]
    intro hmem
    rcases List.mem_append.mp hmem with hin | hin
    · rcases List.mem_flatMap.mp hin with ⟨m2, _, hsm2⟩
      have hsub := ffeContrib_subset today (buildGroups subs) m2 hsm2
      have := mem_findGroup_key subs _ c hsub
      exact this.2.1 (this.1.symm.trans hc)
    · rcases List.mem_flatMap.mp hin with ⟨k2, _, hsk2⟩
      have hsg : c ∈ findGroup (buildGroups subs) k2 := (List.mem_filter.mp hsk2).1
      have := mem_findGroup_key subs _ c hsg
      exact this.2.1 (this.1.symm.trans hc)

/-- Witness for C10: a blank-key sub-candidate with a future date is
absent from the filter output. -/
theorem blank_key_sub_dropped_witness :
    getKeyD c10Sub = "" ∧
    (c10Sub ∉ findGroup (buildGroups [c10Sub]) "kA" ∧
     c10Sub ∉ (filter_future_events_with_subevents c7Today [] [c10Sub]).2) :=
  ⟨rfl, blank_key_sub_dropped c7Today [] [c10Sub] c10Sub "kA" rfl⟩

/-! ## Lifecycle Archiver characterization (for C5, C6 and C9) -/

theorem stripA_ite (c : Prop) [Decidable c] (sb : SubEvent) :
    stripA (if c then archSub sb else sb) = stripA sb := by
  split <;> rfl

theorem parent_ite (c : Prop) [Decidable c] (sb : SubEvent) :
    (if c then archSub sb else sb).main_event_id = sb.main_event_id := by
  split <;> rfl

theorem filter_strip {p : SubEvent → Bool} (hp : ∀ sb, p (stripA sb) = p sb) :
    ∀ {a b : List SubEvent}, a.map stripA = b.map stripA →
      (a.filter p).map stripA = (b.filter p).map stripA := by
  intro a
  induction a with
  | nil =>
      intro b h
      cases b with
      | nil => rfl
      | cons y ys => simp at h
  | cons x xs ih =>
      intro b h
      cases b with
      | nil => simp at h
      | cons y ys =>
          simp only [List.map_cons, List.cons.injEq] at h
          have hx : p x = p y := by rw [← hp x, ← hp y, h.1]
          rw [List.filter_cons, List.filter_cons, ← hx]
          cases hpx : p x with
          | true => simp [h.1, ih h.2]
          | false => simp [ih h.2]

theorem all_strip {q : SubEvent → Bool} (hq : ∀ sb, q (stripA sb) = q sb) :
    ∀ {a b : List SubEvent}, a.map stripA = b.map stripA → a.all q = b.all q := by
  intro a
  induction a with
  | nil =>
      intro b h
      cases b with
      | nil => rfl
      | cons y ys => simp at h
  | cons x xs ih =>
      intro b h
      cases b with
      | nil => simp at h
      | cons y ys =>
          simp only [List.map_cons, List.cons.injEq] at h
          have hx : q x = q y := by rw [← hq x, ← hq y, h.1]
          simp [List.all_cons, hx, ih h.2]

theorem length_strip {a b : List SubEvent} (h : a.map stripA = b.map stripA) :
    a.length = b.length := by
  have h2 := congrArg List.length h
  simpa using h2

theorem mainDecision_strip (today : PyDate) (m : MainEvent) {a b : List SubEvent}
    (h : a.map stripA = b.map stripA) :
    mainDecision today a m = mainDecision today b m := by
  have hf := filter_strip (p := fun sb => sb.main_event_id == some m.id)
    (fun sb => rfl) h
  have hlen := length_strip hf
  have hall := all_strip (q := fun sb => rowPastStrict today sb.end_date sb.start_date)
    (fun sb => rfl) hf
  simp only [mainDecision, subsOfId]
  have hempty : (a.filter (fun sb => sb.main_event_id == some m.id)).isEmpty =
      (b.filter (fun sb => sb.main_event_id == some m.id)).isEmpty := by
    rw [Bool.eq_iff_iff]
    simp only [List.isEmpty_iff_length_eq_zero]
    rw [hlen]
  rw [hempty, hall]

theorem archiveSubsOf_of_empty {subs : List SubEvent} {i : String}
    (h : subsOfId subs i = []) : archiveSubsOf subs i = subs := by
  have h2 := List.filter_eq_nil_iff.mp h
  unfold archiveSubsOf
  have h3 : subs.map (fun sb => if sb.main_event_id = some i then archSub sb else sb) =
      subs.map (fun sb => sb) := by
    apply List.map_congr_left
    intro a ha
    have := h2 a ha
    rw [if_neg (by simpa using this)]
  rw [h3, List.map_id']

theorem processMain_fst_mains (today : PyDate) (st : Store × Nat) (m : MainEvent) :
    (processMain today st m).1.mains =
      if mainDecision today st.1.subs m then setMainArchived st.1.mains m.id
      else st.1.mains := by
  simp only [processMain, mainDecision]
  by_cases hE : (subsOfId st.1.subs m.id).isEmpty = true
  · by_cases hP : rowPastStrict today m.end_date m.start_date = true
    · simp [hE, hP]
    · simp [hE, hP]
  · by_cases hA : ((subsOfId st.1.subs m.id).all
        (fun sb => rowPastStrict today sb.end_date sb.start_date)) = true
    · simp [hE, hA]
    · simp [hE, hA]

theorem processMain_fst_subs (today : PyDate) (st : Store × Nat) (m : MainEvent) :
    (processMain today st m).1.subs =
      if mainDecision today st.1.subs m then archiveSubsOf st.1.subs m.id
      else st.1.subs := by
  simp only [processMain, mainDecision]
  by_cases hE : (subsOfId st.1.subs m.id).isEmpty = true
  · have hnil : subsOfId st.1.subs m.id = [] := List.isEmpty_iff.mp hE
    by_cases hP : rowPastStrict today m.end_date m.start_date = true
    · simp [hE, hP, archiveSubsOf_of_empty hnil]
    · simp [hE, hP]
  · by_cases hA : ((subsOfId st.1.subs m.id).all
        (fun sb => rowPastStrict today sb.end_date sb.start_date)) = true
    · simp [hE, hA]
    · simp [hE, hA]

theorem processMain_fst_nextId (today : PyDate) (st : Store × Nat) (m : MainEvent) :
    (processMain today st m).1.nextId = st.1.nextId := by
  simp only [processMain]
  split
  · split
    · rfl
    · rfl
  · split
    · rfl
    · rfl

theorem archiveSubsOf_strip (subs : List SubEvent) (i : String) :
    (archiveSubsOf subs i).map stripA = subs.map stripA := by
  unfold archiveSubsOf
  rw [List.map_map]
  apply List.map_congr_left
  intro sb _
  exact stripA_ite _ sb

theorem processMain_subs_strip (today : PyDate) (st : Store × Nat) (m : MainEvent) :
    ((processMain today st m).1).subs.map stripA = st.1.subs.map stripA := by
  rw [processMain_fst_subs]
  cases h : mainDecision today st.1.subs m with
  | true =>
      simp only [if_pos rfl]
      exact archiveSubsOf_strip st.1.subs m.id
  | false => simp

theorem archivedIds_cons (today : PyDate) (subs : List SubEvent) (m : MainEvent)
    (rest : List MainEvent) :
    archivedIds today subs (m :: rest) =
      if mainDecision today subs m then m.id :: archivedIds today subs rest
      else archivedIds today subs rest := by
  simp only [archivedIds, List.filter_cons]
  cases h : mainDecision today subs m <;> simp [h]

theorem archivedIds_strip (today : PyDate) (todo : List MainEvent) {a b : List SubEvent}
    (h : a.map stripA = b.map stripA) :
    archivedIds today a todo = archivedIds today b todo := by
  simp only [archivedIds]
  rw [List.filter_congr (fun m _ => mainDecision_strip today m h)]

theorem setMainArchived_map_fusion (mains : List MainEvent) (i : String)
    (ids : List String) :
    (setMainArchived mains i).map
        (fun x => if ids.contains x.id then archMain x else x) =
      mains.map (fun x => if (i :: ids).contains x.id then archMain x else x) := by
  unfold setMainArchived
  rw [List.map_map]
  apply List.map_congr_left
  intro x _
  by_cases hx : x.id = i
  · simp [Function.comp, hx, archMain]
  · simp [Function.comp, hx, archMain]

theorem archiveSubsOf_map_fusion (subs : List SubEvent) (i : String) (ids : List String) :
    (archiveSubsOf subs i).map
        (fun sb => if (match sb.main_event_id with
                       | some p => ids.contains p
                       | none => false) then archSub sb else sb) =
      subs.map (fun sb => if (match sb.main_event_id with
                              | some p => (i :: ids).contains p
                              | none => false) then archSub sb else sb) := by
  unfold archiveSubsOf
  rw [List.map_map]
  apply List.map_congr_left
  intro sb _
  cases hp : sb.main_event_id with
  | none => simp [Function.comp, hp, archSub]
  | some p =>
      by_cases hpi : p = i
      · simp [Function.comp, hp, hpi, archSub]
      · simp [Function.comp, hp, hpi, archSub]

theorem mainLoop_subs_strip (today : PyDate) :
    ∀ (todo : List MainEvent) (s : Store) (c : Nat),
      ((todo.foldl (processMain today) (s, c)).1).subs.map stripA = s.subs.map stripA := by
  intro todo
  induction todo with
  | nil => intro s c; rfl
  | cons m rest ih =>
      intro s c
      rw [List.foldl_cons]
      have h1 : ((rest.foldl (processMain today) (processMain today (s, c) m)).1).subs.map
          stripA = ((processMain today (s, c) m).1).subs.map stripA :=
        ih (processMain today (s, c) m).1 (processMain today (s, c) m).2
      rw [h1, processMain_subs_strip]

theorem mainLoop_nextId (today : PyDate) :
    ∀ (todo : List MainEvent) (s : Store) (c : Nat),
      ((todo.foldl (processMain today) (s, c)).1).nextId = s.nextId := by
  intro todo
  induction todo with
  | nil => intro s c; rfl
  | cons m rest ih =>
      intro s c
      rw [List.foldl_cons]
      have h1 : ((rest.foldl (processMain today) (processMain today (s, c) m)).1).nextId =
          ((processMain today (s, c) m).1).nextId :=
        ih (processMain today (s, c) m).1 (processMain today (s, c) m).2
      rw [h1, processMain_fst_nextId]

theorem mainLoop_mains (today : PyDate) :
    ∀ (todo : List MainEvent) (s : Store) (c : Nat),
      ((todo.foldl (processMain today) (s, c)).1).mains =
        s.mains.map (fun x =>
          if (archivedIds today s.subs todo).contains x.id then archMain x else x) := by
  intro todo
  induction todo with
  | nil =>
      intro s c
      simp [archivedIds]
  | cons m rest ih =>
      intro s c
      rw [List.foldl_cons]
      have h1 : ((rest.foldl (processMain today) (processMain today (s, c) m)).1).mains =
          ((processMain today (s, c) m).1).mains.map (fun x =>
            if (archivedIds today ((processMain today (s, c) m).1).subs rest).contains x.id
            then archMain x else x) :=
        ih (processMain today (s, c) m).1 (processMain today (s, c) m).2
      rw [archivedIds_strip today rest (processMain_subs_strip today (s, c) m)] at h1
      rw [h1, processMain_fst_mains, archivedIds_cons]
      cases hD : mainDecision today s.subs m with
      | true =>
          simp only [hD, if_true]
          exact setMainArchived_map_fusion s.mains m.id (archivedIds today s.subs rest)
      | false => simp [hD]

theorem mainLoop_subs (today : PyDate) :
    ∀ (todo : List MainEvent) (s : Store) (c : Nat),
      ((todo.foldl (processMain today) (s, c)).1).subs =
        s.subs.map (fun sb =>
          if (match sb.main_event_id with
              | some p => (archivedIds today s.subs todo).contains p
              | none => false) then archSub sb else sb) := by
  intro todo
  induction todo with
  | nil =>
      intro s c
      have : s.subs.map (fun sb =>
          if (match sb.main_event_id with
              | some p => (archivedIds today s.subs ([] : List MainEvent)).contains p
              | none => false) then archSub sb else sb) = s.subs.map (fun sb => sb) := by
        apply List.map_congr_left
        intro sb _
        cases hp : sb.main_event_id <;> simp [hp, archivedIds]
      rw [this, List.map_id']
      rfl
  | cons m rest ih =>
      intro s c
      rw [List.foldl_cons]
      have h1 : ((rest.foldl (processMain today) (processMain today (s, c) m)).1).subs =
          ((processMain today (s, c) m).1).subs.map (fun sb =>
            if (match sb.main_event_id with
                | some p =>
                    (archivedIds today ((processMain today (s, c) m).1).subs rest).contains p
                | none => false) then archSub sb else sb) :=
        ih (processMain today (s, c) m).1 (processMain today (s, c) m).2
      rw [archivedIds_strip today rest (processMain_subs_strip today (s, c) m)] at h1
      rw [h1, processMain_fst_subs, archivedIds_cons]
      cases hD : mainDecision today s.subs m with
      | true =>
          simp only [hD, if_true]
          exact archiveSubsOf_map_fusion s.subs m.id (archivedIds today s.subs rest)
      | false => simp [hD]

/-- Closed form of one archiver pass: every main whose id the pass decides
on gets its flag set; every child of such a main gets its flag set; then
past parentless subs get theirs. -/
theorem archive_pass_char (today : PyDate) (s : Store) :
    (archive_past_events_in_db today s).1 =
      { mains := s.mains.map (fun x =>
          if (archivedIds today s.subs
              (s.mains.filter (fun m => !m.archived_event))).contains x.id
          then archMain x else x),
        subs := (s.subs.map (fun sb =>
          if (match sb.main_event_id with
              | some p => (archivedIds today s.subs
                  (s.mains.filter (fun m => !m.archived_event))).contains p
              | none => false) then archSub sb else sb)).map
          (fun sb => if orphanPastSub today sb then archSub sb else sb),
        nextId := s.nextId } := by
  simp only [archive_past_events_in_db, Store.mk.injEq]
  refine ⟨?_, ?_, ?_⟩
  · exact mainLoop_mains today (s.mains.filter (fun m => !m.archived_event)) s 0
  · rw [mainLoop_subs today (s.mains.filter (fun m => !m.archived_event)) s 0]
  · exact mainLoop_nextId today (s.mains.filter (fun m => !m.archived_event)) s 0

/-- Restatement of `archive_pass_char` through the named pointwise maps. -/
theorem archive_pass_char2 (today : PyDate) (s : Store) :
    (archive_past_events_in_db today s).1 =
      { mains := s.mains.map (fun x =>
          if (archivedIds today s.subs
              (s.mains.filter (fun m => !m.archived_event))).contains x.id
          then archMain x else x),
        subs := (s.subs.map (clusterArch (archivedIds today s.subs
            (s.mains.filter (fun m => !m.archived_event))))).map (orphanArch today),
        nextId := s.nextId } :=
  archive_pass_char today s

theorem clusterArch_parent (A : List String) (sb : SubEvent) :
    (clusterArch A sb).main_event_id = sb.main_event_id := by
  unfold clusterArch
  exact parent_ite _ _

theorem orphanArch_parent (today : PyDate) (sb : SubEvent) :
    (orphanArch today sb).main_event_id = sb.main_event_id := by
  unfold orphanArch
  exact parent_ite _ _

theorem clusterArch_strip (A : List String) (sb : SubEvent) :
    stripA (clusterArch A sb) = stripA sb := by
  unfold clusterArch
  exact stripA_ite _ _

theorem orphanArch_strip (today : PyDate) (sb : SubEvent) :
    stripA (orphanArch today sb) = stripA sb := by
  unfold orphanArch
  exact stripA_ite _ _

theorem clusterArch_of_contains {A : List String} {sb : SubEvent} {p : String}
    (hp : sb.main_event_id = some p) (hc : A.contains p = true) :
    clusterArch A sb = archSub sb := by
  have hc2 : p ∈ A := by simpa using hc
  simp [clusterArch, hp, hc2]

theorem clusterArch_of_not_contains {A : List String} {sb : SubEvent} {p : String}
    (hp : sb.main_event_id = some p) (hc : A.contains p = false) :
    clusterArch A sb = sb := by
  have hc2 : p ∉ A := by simpa using hc
  simp [clusterArch, hp, hc2]

theorem clusterArch_of_none {A : List String} {sb : SubEvent}
    (hp : sb.main_event_id = none) : clusterArch A sb = sb := by
  simp [clusterArch, hp]

theorem orphanArch_of_archived {today : PyDate} {sb : SubEvent}
    (h : sb.archived_event = true) : orphanArch today sb = sb := by
  simp [orphanArch, orphanPastSub, h]

theorem orphanArch_of_parent {today : PyDate} {sb : SubEvent} {p : String}
    (hp : sb.main_event_id = some p) : orphanArch today sb = sb := by
  simp [orphanArch, orphanPastSub, hp]

theorem subsOfId_map_parent_pres (f : SubEvent → SubEvent)
    (hf : ∀ sb, (f sb).main_event_id = sb.main_event_id)
    (subs : List SubEvent) (i : String) :
    subsOfId (subs.map f) i = (subsOfId subs i).map f := by
  unfold subsOfId
  rw [List.filter_map]
  congr 1
  apply List.filter_congr
  intro sb _
  simp [Function.comp, hf]

theorem contains_archivedIds (today : PyDate) (subs : List SubEvent)
    (todo : List MainEvent) (k : String) :
    (archivedIds today subs todo).contains k = true ↔
      ∃ y ∈ todo, mainDecision today subs y = true ∧ y.id = k := by
  simp only [archivedIds]
  rw [List.contains_iff_exists_mem_beq]
  constructor
  · rintro ⟨a, ha, hbeq⟩
    rcases List.mem_map.mp ha with ⟨y, hy, hyid⟩
    rcases List.mem_filter.mp hy with ⟨hyt, hyD⟩
    refine ⟨y, hyt, hyD, ?_⟩
    rw [hyid]
    exact (beq_iff_eq.mp hbeq).symm
  · rintro ⟨y, hy, hD, hid⟩
    exact ⟨k, List.mem_map.mpr ⟨y, List.mem_filter.mpr ⟨hy, hD⟩, hid⟩, by simp⟩

/-- In the uniqueness regime of primary keys, a false decision for a main
keeps its id out of the archived-id set. -/
theorem not_contains_archivedIds (today : PyDate) (s : Store) (m : MainEvent)
    (hm : m ∈ s.mains) (hnd : (s.mains.map (·.id)).Nodup)
    (hD : mainDecision today s.subs m = false) :
    (archivedIds today s.subs
        (s.mains.filter (fun x => !x.archived_event))).contains m.id = false := by
  cases hc : (archivedIds today s.subs
      (s.mains.filter (fun x => !x.archived_event))).contains m.id with
  | false => rfl
  | true =>
      rcases (contains_archivedIds today s.subs _ m.id).mp hc with ⟨y, hy, hDy, hyid⟩
      have hym : y = m :=
        List.inj_on_of_nodup_map hnd (List.mem_of_mem_filter hy) hm hyid
      rw [hym] at hDy
      rw [hD] at hDy
      exact absurd hDy (by simp)

/-- If the archiver decides a main, every surviving entry bearing its id is
archived. -/
theorem entries_archived_of_contains (today : PyDate) (s : Store) (m : MainEvent)
    (hm : m ∈ s.mains) (hnd : (s.mains.map (·.id)).Nodup)
    (hc : (archivedIds today s.subs
        (s.mains.filter (fun x => !x.archived_event))).contains m.id = true) :
    ∀ x ∈ ((archive_past_events_in_db today s).1).mains,
      x.id = m.id → x.archived_event = true := by
  intro x hx hxid
  rw [archive_pass_char2] at hx
  rcases List.mem_map.mp hx with ⟨y, hy, hfy⟩
  by_cases hcy : (archivedIds today s.subs
      (s.mains.filter (fun x => !x.archived_event))).contains y.id = true
  · have hcy2 : y.id ∈ archivedIds today s.subs
        (s.mains.filter (fun x => !x.archived_event)) := by simpa using hcy
    rw [← hfy]
    simp [hcy2, archMain]
  · have hcy2 : y.id ∉ archivedIds today s.subs
        (s.mains.filter (fun x => !x.archived_event)) := by simpa using hcy
    have hxy : x = y := by rw [← hfy]; simp [hcy2]
    rw [hxy] at hxid
    have hym : y = m := List.inj_on_of_nodup_map hnd hy hm hxid
    rw [hym] at hcy
    exact absurd hc hcy

/-- If the archiver does not decide a main, its row survives unchanged, and
it is the only row bearing its id. -/
theorem entry_unchanged_of_not_contains (today : PyDate) (s : Store) (m : MainEvent)
    (hm : m ∈ s.mains) (hnd : (s.mains.map (·.id)).Nodup)
    (hc : (archivedIds today s.subs
        (s.mains.filter (fun x => !x.archived_event))).contains m.id = false) :
    m ∈ ((archive_past_events_in_db today s).1).mains ∧
    (∀ x ∈ ((archive_past_events_in_db today s).1).mains, x.id = m.id → x = m) := by
  have hc2 : m.id ∉ archivedIds today s.subs
      (s.mains.filter (fun x => !x.archived_event)) := by simpa using hc
  rw [archive_pass_char2]
  constructor
  · refine List.mem_map.mpr ⟨m, hm, ?_⟩
    simp [hc2]
  · intro x hx hxid
    rcases List.mem_map.mp hx with ⟨y, hy, hfy⟩
    by_cases hcy : (archivedIds today s.subs
        (s.mains.filter (fun x => !x.archived_event))).contains y.id = true
    · have hcy2 : y.id ∈ archivedIds today s.subs
          (s.mains.filter (fun x => !x.archived_event)) := by simpa using hcy
      have hid : y.id = m.id := by
        rw [← hxid, ← hfy]
        simp [hcy2, archMain]
      have hym : y = m := List.inj_on_of_nodup_map hnd hy hm hid
      rw [hym] at hcy2
      exact absurd hcy2 hc2
    · have hcy2 : y.id ∉ archivedIds today s.subs
          (s.mains.filter (fun x => !x.archived_event)) := by simpa using hcy
      have hxy : x = y := by rw [← hfy]; simp [hcy2]
      rw [hxy] at hxid ⊢
      exact List.inj_on_of_nodup_map hnd hy hm hxid

/-- The children of a main in the pass output are the images of its
original children under the two pointwise flag maps. -/
theorem children_after_pass (today : PyDate) (s : Store) (i : String) :
    subsOfId ((archive_past_events_in_db today s).1).subs i =
      ((subsOfId s.subs i).map (clusterArch (archivedIds today s.subs
          (s.mains.filter (fun m => !m.archived_event))))).map (orphanArch today) := by
  rw [archive_pass_char2]
  rw [subsOfId_map_parent_pres (orphanArch today) (orphanArch_parent today),
    subsOfId_map_parent_pres _ (clusterArch_parent _)]

/-- Children of a decided main are all archived in the pass output. -/
theorem children_archived_of_contains (today : PyDate) (s : Store) (m : MainEvent)
    (hc : (archivedIds today s.subs
        (s.mains.filter (fun x => !x.archived_event))).contains m.id = true) :
    ∀ c ∈ subsOfId ((archive_past_events_in_db today s).1).subs m.id,
      c.archived_event = true := by
  intro c hcm
  rw [children_after_pass] at hcm
  rcases List.mem_map.mp hcm with ⟨c1, hc1, hg2⟩
  rcases List.mem_map.mp hc1 with ⟨c0, hc0, hg1⟩
  have hp0 : c0.main_event_id = some m.id := by
    have := (List.mem_filter.mp hc0).2
    exact beq_iff_eq.mp this
  rw [clusterArch_of_contains hp0 hc] at hg1
  rw [← hg1, orphanArch_of_archived rfl] at hg2
  rw [← hg2]
  rfl

/-- Children of an undecided main are untouched by the pass. -/
theorem children_unchanged_of_not_contains (today : PyDate) (s : Store) (m : MainEvent)
    (hc : (archivedIds today s.subs
        (s.mains.filter (fun x => !x.archived_event))).contains m.id = false) :
    subsOfId ((archive_past_events_in_db today s).1).subs m.id =
      subsOfId s.subs m.id := by
  rw [children_after_pass]
  have h1 : (subsOfId s.subs m.id).map (clusterArch (archivedIds today s.subs
      (s.mains.filter (fun m => !m.archived_event)))) = subsOfId s.subs m.id := by
    have := List.map_congr_left (l := subsOfId s.subs m.id)
      (f := clusterArch (archivedIds today s.subs
        (s.mains.filter (fun m => !m.archived_event)))) (g := fun sb => sb) ?_
    · rw [this, List.map_id']
    · intro sb hsb
      have hp : sb.main_event_id = some m.id :=
        beq_iff_eq.mp (List.mem_filter.mp hsb).2
      exact clusterArch_of_not_contains hp hc
  rw [h1]
  have h2 := List.map_congr_left (l := subsOfId s.subs m.id)
    (f := orphanArch today) (g := fun sb => sb) ?_
  · rw [h2, List.map_id']
  · intro sb hsb
    have hp : sb.main_event_id = some m.id :=
      beq_iff_eq.mp (List.mem_filter.mp hsb).2
    exact orphanArch_of_parent hp

/-- The decision of a main with children is the all-past check; of a
childless main its own-window check. -/
theorem mainDecision_of_children {today : PyDate} {subs : List SubEvent}
    {m : MainEvent} (hch : subsOfId subs m.id ≠ []) :
    mainDecision today subs m =
      (subsOfId subs m.id).all (fun c => rowPastStrict today c.end_date c.start_date) := by
  simp only [mainDecision]
  rw [if_neg (by simpa [List.isEmpty_iff] using hch)]

theorem mainDecision_of_childless {today : PyDate} {subs : List SubEvent}
    {m : MainEvent} (hch : subsOfId subs m.id = []) :
    mainDecision today subs m = rowPastStrict today m.end_date m.start_date := by
  simp only [mainDecision]
  rw [if_pos (by simpa [List.isEmpty_iff] using hch)]

/-! ## Claim C5: hierarchical archiving rule (confirmed) -/

/-- C5: a non-archived main with children is archived, together with all
its children, exactly when every child's window (end date, falling back to
the start date) parses and lies strictly before today; when some child
fails that test, neither the main row nor any of its children is touched
by the pass.  A non-archived childless main is archived exactly when its
own window passes that test. -/
theorem hierarchical_archiving_rule (today : PyDate) (s : Store) (m : MainEvent)
    (hm : m ∈ s.mains) (hna : m.archived_event = false)
    (hnd : (s.mains.map (·.id)).Nodup) :
    (subsOfId s.subs m.id ≠ [] →
      (((subsOfId s.subs m.id).all
          (fun c => rowPastStrict today c.end_date c.start_date) = true ↔
        ((∀ x ∈ ((archive_past_events_in_db today s).1).mains,
            x.id = m.id → x.archived_event = true) ∧
         (∀ c ∈ subsOfId ((archive_past_events_in_db today s).1).subs m.id,
            c.archived_event = true))) ∧
       ((subsOfId s.subs m.id).all
          (fun c => rowPastStrict today c.end_date c.start_date) = false →
        (m ∈ ((archive_past_events_in_db today s).1).mains ∧
         subsOfId ((archive_past_events_in_db today s).1).subs m.id =
           subsOfId s.subs m.id)))) ∧
    (subsOfId s.subs m.id = [] →
      (rowPastStrict today m.end_date m.start_date = true ↔
        (∀ x ∈ ((archive_past_events_in_db today s).1).mains,
          x.id = m.id → x.archived_event = true))) := by
  have hsnap : m ∈ s.mains.filter (fun x => !x.archived_event) :=
    List.mem_filter.mpr ⟨hm, by simp [hna]⟩
  constructor
  · intro hch
    constructor
    · constructor
      · intro hall
        have hD : mainDecision today s.subs m = true := by
          rw [mainDecision_of_children hch]
          exact hall
        have hc : (archivedIds today s.subs
            (s.mains.filter (fun x => !x.archived_event))).contains m.id = true :=
          (contains_archivedIds today s.subs _ m.id).mpr ⟨m, hsnap, hD, rfl⟩
        exact ⟨entries_archived_of_contains today s m hm hnd hc,
          children_archived_of_contains today s m hc⟩
      · intro hRHS
        cases hall : (subsOfId s.subs m.id).all
            (fun c => rowPastStrict today c.end_date c.start_date) with
        | true => rfl
        | false =>
            have hD : mainDecision today s.subs m = false := by
              rw [mainDecision_of_children hch]
              exact hall
            have hc := not_contains_archivedIds today s m hm hnd hD
            have hmem := (entry_unchanged_of_not_contains today s m hm hnd hc).1
            have := hRHS.1 m hmem rfl
            rw [hna] at this
            exact absurd this (by simp)
    · intro hall
      have hD : mainDecision today s.subs m = false := by
        rw [mainDecision_of_children hch]
        exact hall
      have hc := not_contains_archivedIds today s m hm hnd hD
      exact ⟨(entry_unchanged_of_not_contains today s m hm hnd hc).1,
        children_unchanged_of_not_contains today s m hc⟩
  · intro hch
    constructor
    · intro hown
      have hD : mainDecision today s.subs m = true := by
        rw [mainDecision_of_childless hch]
        exact hown
      have hc : (archivedIds today s.subs
          (s.mains.filter (fun x => !x.archived_event))).contains m.id = true :=
        (contains_archivedIds today s.subs _ m.id).mpr ⟨m, hsnap, hD, rfl⟩
      exact entries_archived_of_contains today s m hm hnd hc
    · intro hRHS
      cases hown : rowPastStrict today m.end_date m.start_date with
      | true => rfl
      | false =>
          have hD : mainDecision today s.subs m = false := by
            rw [mainDecision_of_childless hch]
            exact hown
          have hc := not_contains_archivedIds today s m hm hnd hD
          have hmem := (entry_unchanged_of_not_contains today s m hm hnd hc).1
          have := hRHS m hmem rfl
          rw [hna] at this
          exact absurd this (by simp)

/-- Witness for C5: a main with two past children (one dated only by its
start date) — the whole cluster is archived. -/
theorem hierarchical_archiving_rule_witness :
    (c5Main ∈ c5Store.mains ∧ c5Main.archived_event = false ∧
      (c5Store.mains.map (·.id)).Nodup) ∧
    ((subsOfId c5Store.subs c5Main.id ≠ [] →
      (((subsOfId c5Store.subs c5Main.id).all
          (fun c => rowPastStrict c7Today c.end_date c.start_date) = true ↔
        ((∀ x ∈ ((archive_past_events_in_db c7Today c5Store).1).mains,
            x.id = c5Main.id → x.archived_event = true) ∧
         (∀ c ∈ subsOfId ((archive_past_events_in_db c7Today c5Store).1).subs c5Main.id,
            c.archived_event = true))) ∧
       ((subsOfId c5Store.subs c5Main.id).all
          (fun c => rowPastStrict c7Today c.end_date c.start_date) = false →
        (c5Main ∈ ((archive_past_events_in_db c7Today c5Store).1).mains ∧
         subsOfId ((archive_past_events_in_db c7Today c5Store).1).subs c5Main.id =
           subsOfId c5Store.subs c5Main.id)))) ∧
     (subsOfId c5Store.subs c5Main.id = [] →
      (rowPastStrict c7Today c5Main.end_date c5Main.start_date = true ↔
        (∀ x ∈ ((archive_past_events_in_db c7Today c5Store).1).mains,
          x.id = c5Main.id → x.archived_event = true)))) :=
  ⟨⟨by decide, by decide, by decide⟩,
   hierarchical_archiving_rule c7Today c5Store c5Main (by decide) (by decide) (by decide)⟩

/-! ## Claim C6: archived-liveness invariant (corrected)

A main with children is decided solely by its children's windows: when all
children are past, the main is archived even if its own window is still
future.  The invariant holds only in the weakened form that a childless
main with a future or unparseable own window, and a main having at least
one future or unparseable child, are never archived. -/

/-- C6 counterexample: the main's own end date (2025-06-20) is after today
(2025-06-15), yet after one pass its row is archived, because its only
child is past. -/
theorem archiver_archives_future_main :
    rowPastStrict c7Today c6Main.end_date c6Main.start_date = false ∧
    is_future_event c7Today { End_Date := c6Main.end_date } = true ∧
    ((archive_past_events_in_db c7Today c6Store).1).mains.map (·.archived_event) =
      [true] := by
  refine ⟨by decide, by decide, by decide⟩

/-- C6 amended: the archiver never archives a non-archived main that is
childless with a non-past (future, missing or unparseable) own window, nor
one that has at least one non-past child; such a main's row survives the
pass unchanged. -/
theorem archiver_keeps_live_main (today : PyDate) (s : Store) (m : MainEvent)
    (hm : m ∈ s.mains) (hna : m.archived_event = false)
    (hnd : (s.mains.map (·.id)).Nodup)
    (hlive : (subsOfId s.subs m.id = [] ∧
        rowPastStrict today m.end_date m.start_date = false) ∨
      (∃ c ∈ subsOfId s.subs m.id, rowPastStrict today c.end_date c.start_date = false)) :
    m ∈ ((archive_past_events_in_db today s).1).mains ∧
    (∀ x ∈ ((archive_past_events_in_db today s).1).mains, x.id = m.id → x = m) := by
  have hD : mainDecision today s.subs m = false := by
    rcases hlive with ⟨hch, hown⟩ | ⟨c, hcmem, hcf⟩
    · rw [mainDecision_of_childless hch]
      exact hown
    · have hch : subsOfId s.subs m.id ≠ [] := by
        intro h
        rw [h] at hcmem
        exact absurd hcmem (List.not_mem_nil c)
      rw [mainDecision_of_children hch]
      exact List.all_eq_false.mpr ⟨c, hcmem, by simp [hcf]⟩
  exact entry_unchanged_of_not_contains today s m hm hnd
    (not_contains_archivedIds today s m hm hnd hD)

/-- Witness for the amended C6 at a main with one past and one future
child: its row survives the pass unchanged. -/
theorem archiver_keeps_live_main_witness :
    (c6LiveMain ∈ c6LiveStore.mains ∧ c6LiveMain.archived_event = false ∧
      (c6LiveStore.mains.map (·.id)).Nodup ∧
      (∃ c ∈ subsOfId c6LiveStore.subs c6LiveMain.id,
        rowPastStrict c7Today c.end_date c.start_date = false)) ∧
    (c6LiveMain ∈ ((archive_past_events_in_db c7Today c6LiveStore).1).mains ∧
     (∀ x ∈ ((archive_past_events_in_db c7Today c6LiveStore).1).mains,
        x.id = c6LiveMain.id → x = c6LiveMain)) :=
  ⟨⟨by decide, by decide, by decide, by decide⟩,
   archiver_keeps_live_main c7Today c6LiveStore c6LiveMain (by decide) (by decide)
     (by decide) (Or.inr (by decide))⟩

/-! ## Claim C9: archiver idempotence (confirmed) -/

theorem mainLoop_id (today : PyDate) :
    ∀ (todo : List MainEvent) (s : Store) (c : Nat),
      (∀ m ∈ todo, mainDecision today s.subs m = false) →
      todo.foldl (processMain today) (s, c) = (s, c) := by
  intro todo
  induction todo with
  | nil => intro s c _; rfl
  | cons m rest ih =>
      intro s c hall
      rw [List.foldl_cons]
      have hm := hall m (List.mem_cons_self m rest)
      have hstep : processMain today (s, c) m = (s, c) := by
        simp only [processMain]
        by_cases hE : (subsOfId s.subs m.id).isEmpty = true
        · rw [mainDecision_of_childless (List.isEmpty_iff.mp hE)] at hm
          simp [hE, hm]
        · have hch : subsOfId s.subs m.id ≠ [] := by
            intro h
            exact hE (by simp [h])
          rw [mainDecision_of_children hch] at hm
          simp [hE, hm]
      rw [hstep]
      exact ih s c (fun x hx => hall x (List.mem_cons_of_mem m hx))

/-- The archiver pass only ever sets archive flags on sub rows. -/
theorem archive_pass_subs_strip (today : PyDate) (s : Store) :
    (((archive_past_events_in_db today s).1).subs).map stripA = s.subs.map stripA := by
  rw [archive_pass_char2]
  show (((s.subs.map _).map _).map stripA) = s.subs.map stripA
  rw [List.map_map, List.map_map]
  apply List.map_congr_left
  intro sb _
  show stripA (orphanArch today (clusterArch _ sb)) = stripA sb
  rw [orphanArch_strip, clusterArch_strip]

/-- C9: running the archiver a second time on its own output changes
nothing and archives zero rows. -/
theorem archiver_idempotent (today : PyDate) (s : Store) :
    archive_past_events_in_db today ((archive_past_events_in_db today s).1) =
      ((archive_past_events_in_db today s).1, 0) := by
  have hstrip := archive_pass_subs_strip today s
  have hm1 : ((archive_past_events_in_db today s).1).mains =
      s.mains.map (fun y => if (archivedIds today s.subs
        (s.mains.filter (fun x => !x.archived_event))).contains y.id
        then archMain y else y) := by
    rw [archive_pass_char2]
  have hsnap : ∀ x ∈ ((archive_past_events_in_db today s).1).mains.filter
      (fun m => !m.archived_event),
      mainDecision today ((archive_past_events_in_db today s).1).subs x = false := by
    intro x hx
    rcases List.mem_filter.mp hx with ⟨hxin, hxna⟩
    rw [hm1] at hxin
    rcases List.mem_map.mp hxin with ⟨y, hy, hfy⟩
    rw [mainDecision_strip today x hstrip]
    by_cases hcy : (archivedIds today s.subs
        (s.mains.filter (fun x => !x.archived_event))).contains y.id = true
    · have hcy2 : y.id ∈ archivedIds today s.subs
          (s.mains.filter (fun x => !x.archived_event)) := by simpa using hcy
      rw [← hfy] at hxna
      simp [hcy2, archMain] at hxna
    · have hcy2 : y.id ∉ archivedIds today s.subs
          (s.mains.filter (fun x => !x.archived_event)) := by simpa using hcy
      have hxy : x = y := by rw [← hfy]; simp [hcy2]
      cases hD : mainDecision today s.subs x with
      | false => rfl
      | true =>
          have hxna2 : x.archived_event = false := by
            rw [hxy] at hxna ⊢
            simpa using hxna
          have hxsnap : x ∈ s.mains.filter (fun m => !m.archived_event) :=
            List.mem_filter.mpr ⟨hxy ▸ hy, by simp [hxna2]⟩
          have hcx : (archivedIds today s.subs
              (s.mains.filter (fun x => !x.archived_event))).contains x.id = true :=
            (contains_archivedIds today s.subs _ x.id).mpr ⟨x, hxsnap, hD, rfl⟩
          rw [hxy] at hcx
          exact absurd hcx hcy
  have horph : ∀ sb ∈ ((archive_past_events_in_db today s).1).subs,
      orphanPastSub today sb = false := by
    intro sb hsb
    have hsub1 : ((archive_past_events_in_db today s).1).subs =
        (s.subs.map (clusterArch (archivedIds today s.subs
          (s.mains.filter (fun m => !m.archived_event))))).map (orphanArch today) := by
      rw [archive_pass_char2]
    rw [hsub1] at hsb
    rcases List.mem_map.mp hsb with ⟨c1, hc1, hg2⟩
    rcases List.mem_map.mp hc1 with ⟨c0, hc0, hg1⟩
    cases hp : c0.main_event_id with
    | some p =>
        have hpsb : sb.main_event_id = some p := by
          rw [← hg2, ← hg1, orphanArch_parent, clusterArch_parent, hp]
        simp [orphanPastSub, hpsb]
    | none =>
        rw [clusterArch_of_none hp] at hg1
        rw [← hg1] at hg2
        by_cases ho : orphanPastSub today c0 = true
        · have hsb2 : sb = archSub c0 := by
            rw [← hg2]
            simp [orphanArch, ho]
          rw [hsb2]
          simp [orphanPastSub, archSub]
        · have hof : orphanPastSub today c0 = false := by
            cases h2 : orphanPastSub today c0 with
            | false => rfl
            | true => exact absurd h2 ho
          have hsb2 : sb = c0 := by
            rw [← hg2]
            simp [orphanArch, hof]
          rw [hsb2]
          exact hof
  have hloop := mainLoop_id today
    (((archive_past_events_in_db today s).1).mains.filter (fun m => !m.archived_event))
    ((archive_past_events_in_db today s).1) 0 hsnap
  have hmapid : (((archive_past_events_in_db today s).1).subs).map
      (fun sb => if orphanPastSub today sb then archSub sb else sb) =
      ((archive_past_events_in_db today s).1).subs := by
    have h3 := List.map_congr_left
      (l := ((archive_past_events_in_db today s).1).subs)
      (f := fun sb => if orphanPastSub today sb then archSub sb else sb)
      (g := fun sb => sb) (fun sb hsb => by simp [horph sb hsb])
    rw [h3, List.map_id']
  have hfilnil : (((archive_past_events_in_db today s).1).subs).filter
      (orphanPastSub today) = [] :=
    List.filter_eq_nil_iff.mpr (fun sb hsb => by simp [horph sb hsb])
  conv_lhs => rw [archive_past_events_in_db]
  rw [hloop]
  rw [hmapid, hfilnil]
  rfl

end EventPipeline
